import Mathlib

/-!
Verification of the kglw-listen show-resolution engine.

This file shallowly embeds the server-side pipeline of the repository:
the Internet-Archive document classifier, date normalization, recording
scorer, show grouping / fuzzy merge, special-event tagging, sorting and
pagination of `src/app/api/ia/shows/route.ts`, the recording scorer of
`src/app/api/ia/show/route.ts`, and the cache-write disciplines of the
four TTL caches.

Modelling conventions:
* JavaScript numbers are modelled as `ℚ`; a JS number that may be `NaN`
  (or non-finite) is modelled as `Option ℚ` with `none` for `NaN`.
  Fields that the code passes through `Number(...)` before use are
  stored as `Option ℚ`, the result of that coercion (`none` = the
  coercion produced a non-finite value, which covers both missing and
  non-numeric source fields).
* Strings are ASCII in practice; `lowerStr` models JS `toLowerCase`
  on that fragment.
* `Math.log10` is transcendental; the scorers are parameterized over an
  arbitrary function `log10 : ℚ → ℚ` so that every statement below holds
  for the real logarithm in particular.  No claim in scope depends on
  the numeric values of the logarithm.
* `string | string[]` fields (`creator`, `collection`) are modelled as
  `List String`; a scalar is a one-element list and a missing field is
  `[]`, which makes the code's `Array.isArray(x) ? x.join(" ") : x || ""`
  equal to `joinSpace`.
-/

namespace KglwListen

/-- ASCII lowercasing, modelling JS `toLowerCase` on the ASCII fragment.
(Defined through `List.map` so that it evaluates by kernel reduction;
`String.toLower` itself is implemented with position arithmetic.) -/
def lowerStr (s : String) : String :=
  String.mk (s.data.map Char.toLower)

/-- `Array.isArray(x) ? x.join(" ") : x || ""` for `string | string[]`
fields modelled as `List String`. -/
def joinSpace : List String → String
  | [] => ""
  | [s] => s
  | s :: rest => s ++ " " ++ joinSpace rest

/-- Whitespace for the JS `trim` model (ASCII fragment). -/
def isSpaceChar (c : Char) : Bool :=
  c == ' ' || c == '\t' || c == '\n' || c == '\r'

/-- JS `String.prototype.trim` (ASCII whitespace fragment). -/
def trimStr (s : String) : String :=
  String.mk (((s.data.dropWhile isSpaceChar).reverse.dropWhile isSpaceChar).reverse)

/-- Split a character list at every occurrence of `sep`; all separators in
the source are single characters (`"|"`, `"-"`, `":"`), for which this
equals JS `String.prototype.split`. -/
def splitOnChar (sep : Char) : List Char → List (List Char)
  | [] => [[]]
  | c :: t =>
    let r := splitOnChar sep t
    if c == sep then [] :: r
    else
      match r with
      | h :: rest => (c :: h) :: rest
      | [] => [[c]]

/-- JS `s.split(sep)` for a one-character separator. -/
def strSplitOnChar (s : String) (sep : Char) : List String :=
  (splitOnChar sep s.data).map String.mk

/-- JS `s.endsWith(suffix)`. -/
def strEndsWith (s suffix : String) : Bool :=
  suffix.data.isSuffixOf s.data

/-- Substring test on character lists: does `needle` occur inside `hay`?
Models JS `String.prototype.includes`. -/
def listContains (hay needle : List Char) : Bool :=
  match hay with
  | [] => needle.isEmpty
  | _ :: t => needle.isPrefixOf hay || listContains t needle

/-- JS `hay.includes(needle)` on strings. -/
def strContains (hay needle : String) : Bool :=
  listContains hay.data needle.data

/-- `\w` of JS regexes: ASCII letters, digits and underscore. -/
def isWordChar (c : Char) : Bool :=
  c.isAlphanum || c == '_'

/-- Is the optional character a word boundary (absent or non-word)? -/
def boundaryOk (c : Option Char) : Bool :=
  match c with
  | none => true
  | some c => !isWordChar c

/-- Does `needle` match at the head of `hay` with a word boundary after it? -/
def matchWordAt (hay needle : List Char) : Bool :=
  needle.isPrefixOf hay && boundaryOk ((hay.drop needle.length).head?)

/-- Word-bounded occurrence search: models the JS regex test
`/\b<needle>\b/.test(hay)` for a needle whose first and last characters
are word characters (all the continent keywords below are of that
shape).  `prev` is the character just before the current position. -/
def containsWordFrom (prev : Option Char) (hay needle : List Char) : Bool :=
  (boundaryOk prev && matchWordAt hay needle) ||
    match hay with
    | [] => false
    | c :: t => containsWordFrom (some c) t needle

/-- `/\b<w>\b/.test(hay)` on strings (the haystack is lowercased by the
callers, matching the source). -/
def hayContainsWord (hay w : String) : Bool :=
  containsWordFrom none hay.data w.data

/-! ## Date normalization (`tryNormalizeDate`, `extractShowDate`) -/

/-- One of the separator characters `[-./]` of the dashed date pattern. -/
def isDateSep (c : Char) : Bool :=
  c == '-' || c == '.' || c == '/'

/-- The year prefix `(19|20)\d{2}` of both date regexes. -/
def isYearQuad (c0 c1 c2 c3 : Char) : Bool :=
  ((c0 == '1' && c1 == '9') || (c0 == '2' && c1 == '0')) && c2.isDigit && c3.isDigit

/-- The month alternatives `(0[1-9]|1[0-2])`. -/
def isMonthPair (m1 m2 : Char) : Bool :=
  (m1 == '0' && m2.isDigit && m2 != '0') ||
    (m1 == '1' && (m2 == '0' || m2 == '1' || m2 == '2'))

/-- The day alternatives `(0[1-9]|[12]\d|3[01])`. -/
def isDayPair (d1 d2 : Char) : Bool :=
  (d1 == '0' && d2.isDigit && d2 != '0') ||
    ((d1 == '1' || d1 == '2') && d2.isDigit) ||
    (d1 == '3' && (d2 == '0' || d2 == '1'))

/-- Match of `(19|20)\d{2}[-./](0[1-9]|1[0-2])[-./](0[1-9]|[12]\d|3[01])`
anchored at the head of the list; on success, the match with separators
already rewritten to `-` (the code's `.replace(/[./]/g, "-")`). -/
def sepDateAt (l : List Char) : Option (List Char) :=
  match l with
  | c0 :: c1 :: c2 :: c3 :: s1 :: m1 :: m2 :: s2 :: d1 :: d2 :: _ =>
      if isYearQuad c0 c1 c2 c3 && isDateSep s1 && isMonthPair m1 m2 &&
          isDateSep s2 && isDayPair d1 d2 then
        some [c0, c1, c2, c3, '-', m1, m2, '-', d1, d2]
      else none
  | _ => none

/-- Match of the compact `(19|20)\d{2}(0[1-9]|1[0-2])(0[1-9]|[12]\d|3[01])`
anchored at the head of the list, returned in dashed `YYYY-MM-DD` form
(the code's explicit re-slicing). -/
def compactDateAt (l : List Char) : Option (List Char) :=
  match l with
  | c0 :: c1 :: c2 :: c3 :: m1 :: m2 :: d1 :: d2 :: _ =>
      if isYearQuad c0 c1 c2 c3 && isMonthPair m1 m2 && isDayPair d1 d2 then
        some [c0, c1, c2, c3, '-', m1, m2, '-', d1, d2]
      else none
  | _ => none

/-- Leftmost-match scan: try the anchored matcher at every position from
the left, like a JS regex without `^`. -/
def scanFor (f : List Char → Option (List Char)) : List Char → Option (List Char)
  | [] => f []
  | c :: t =>
    match f (c :: t) with
    | some r => some r
    | none => scanFor f (c :: t).tail

/-- `tryNormalizeDate` of `src/app/api/ia/shows/route.ts`: first the
dashed/dotted/slashed pattern anywhere in the string, then the compact
pattern; `none` when neither occurs (including for the empty string). -/
def tryNormalizeDate (s : String) : Option String :=
  if s = "" then none
  else
    match scanFor sepDateAt s.data with
    | some r => some (String.mk r)
    | none => (scanFor compactDateAt s.data).map String.mk

/-! ## Documents -/

/-- One raw Internet-Archive search document (`IaDoc` in the source).
Numeric fields hold the result of the JS `Number(...)` coercion
(see the module docstring). -/
structure IaDoc where
  identifier : String
  title : Option String := none
  date : Option String := none
  creator : List String := []
  collection : List String := []
  coverage : Option String := none
  venue : Option String := none
  downloads : Option ℚ := none
  avg_rating : Option ℚ := none
  num_reviews : Option ℚ := none
  deriving Repr, DecidableEq

/-- `extractShowDate`: structured date field first, then the identifier,
then the title.  (`doc.date ? ... : null` and `doc.identifier || ""`
agree with `getD ""` here because `tryNormalizeDate "" = none`.) -/
def extractShowDate (doc : IaDoc) : Option String :=
  match tryNormalizeDate (doc.date.getD "") with
  | some d => some d
  | none =>
    match tryNormalizeDate doc.identifier with
    | some d => some d
    | none => tryNormalizeDate (doc.title.getD "")

/-- `parseNum`: `Number.isFinite(n) ? n : 0` after the `Number` coercion. -/
def parseNum (x : Option ℚ) : ℚ :=
  x.getD 0

/-- The source-type hint (`"SBD" | "AUD" | "MATRIX" | "UNKNOWN"`). -/
inductive SourceHint where
  | SBD
  | AUD
  | MATRIX
  | UNKNOWN
  deriving Repr, DecidableEq

/-- `sourceHint`: case-insensitive scan of `identifier + " " + title` for
`"matrix"`, then `"sbd"`, then `"aud"`.  This function is defined
identically in `src/app/api/ia/shows/route.ts` and
`src/app/api/ia/show/route.ts`. -/
def sourceHint (identifier : String) (title : Option String) : SourceHint :=
  let hay := lowerStr (identifier ++ " " ++ title.getD "")
  if strContains hay "matrix" then .MATRIX
  else if strContains hay "sbd" then .SBD
  else if strContains hay "aud" then .AUD
  else .UNKNOWN

/-- `scoreSource` of the list endpoint `src/app/api/ia/shows/route.ts`:
hint bonus 100 / 30 / 0, parameterized over `log10` (see module
docstring). -/
def scoreSource (log10 : ℚ → ℚ) (doc : IaDoc) : ℚ :=
  let hint := sourceHint doc.identifier doc.title
  let downloads := parseNum doc.downloads
  let avg := parseNum doc.avg_rating
  let reviews := parseNum doc.num_reviews
  let hintBonus : ℚ := if hint = .SBD then 100 else if hint = .MATRIX then 30 else 0
  log10 (downloads + 1) * 10 + avg * 2 + log10 (reviews + 1) + hintBonus

/-- `scoreSource` of the detail endpoint `src/app/api/ia/show/route.ts`:
same formula but hint bonus `hint === "SBD" ? 3 : hint === "MATRIX" ? 1 : 0`. -/
def showDetailScoreSource (log10 : ℚ → ℚ) (doc : IaDoc) : ℚ :=
  let hint := sourceHint doc.identifier doc.title
  let downloads := parseNum doc.downloads
  let avg := parseNum doc.avg_rating
  let reviews := parseNum doc.num_reviews
  let hintBonus : ℚ := if hint = .SBD then 3 else if hint = .MATRIX then 1 else 0
  log10 (downloads + 1) * 10 + avg * 2 + log10 (reviews + 1) + hintBonus

/-- `isKglwDoc`: collection membership first, otherwise a conservative
alias scan over `identifier + title + creator`. -/
def isKglwDoc (doc : IaDoc) : Bool :=
  let creator := joinSpace doc.creator
  let collection := joinSpace doc.collection
  if collection ≠ "" && strContains (lowerStr collection) "kinggizzardandthelizardwizard" then
    true
  else
    let hay := lowerStr (doc.identifier ++ " " ++ doc.title.getD "" ++ " " ++ creator)
    strContains hay "king gizzard" || strContains hay "kinggizzard" ||
      strContains hay "kglw" || strContains hay "the lizard wizard"

/-! ## `slugify` -/

/-- `[a-z0-9]` after lowercasing. -/
def isSlugChar (c : Char) : Bool :=
  c.isLower || c.isDigit

/-- The `.replace(/&/g, "and")` step (applied to lowercased text). -/
def expandAmp : List Char → List Char
  | [] => []
  | c :: t => if c == '&' then 'a' :: 'n' :: 'd' :: expandAmp t else c :: expandAmp t

/-- The `.replace(/[^a-z0-9]+/g, "-")` step: each maximal run of
non-slug characters becomes a single hyphen. -/
def collapseNonSlug : List Char → List Char
  | [] => []
  | c :: t =>
    if isSlugChar c then c :: collapseNonSlug t
    else '-' :: collapseNonSlug (t.dropWhile (fun d => !isSlugChar d))
termination_by l => l.length
decreasing_by
  all_goals simp only [List.length_cons]
  · omega
  · have h : (t.dropWhile fun d => !isSlugChar d).length ≤ t.length :=
      (List.dropWhile_suffix _).sublist.length_le
    omega

/-- The `.replace(/^-+|-+$/g, "")` step. -/
def trimHyphens (l : List Char) : List Char :=
  ((l.dropWhile (· == '-')).reverse.dropWhile (· == '-')).reverse

/-- `slugify`: lowercase, `&` → `and`, non-alphanumeric runs → `-`,
trim hyphens, truncate to 60 characters. -/
def slugify (s : String) : String :=
  String.mk ((trimHyphens (collapseNonSlug (expandAmp (lowerStr s).data))).take 60)

/-! ## Venue token similarity (`venueLooksSame`, `venueSlugMatches`)

JS `Set`s are modelled as `List String` deduplicated by `jsSetList`
(insertion order of first occurrences, exactly a JS `Set`'s iteration
order); `size` is the length of the deduplicated list. -/

/-- `new Set(l)` as a list, with the elements already seen accumulated:
keep the first occurrence of each element. -/
def jsSetListAux (seen : List String) : List String → List String
  | [] => []
  | x :: xs =>
    if seen.contains x then jsSetListAux seen xs
    else x :: jsSetListAux (x :: seen) xs

/-- `new Set(l)` as a list: keep the first occurrence of each element. -/
def jsSetList (l : List String) : List String :=
  jsSetListAux [] l

/-- `VENUE_STOP_WORDS`. -/
def VENUE_STOP_WORDS : List String :=
  ["live", "at", "in", "on", "the", "and", "king", "gizzard", "lizard",
    "wizard", "set", "bootleg", "official"]

/-- The body of `venueLooksSame` after the two `venueTokens` calls, over
the two token sets (deduplicated token lists).  `venueTokens` itself
(regex venue-phrase extraction followed by tokenization) is kept
abstract — the claims in scope quantify over the resulting token sets. -/
def venueLooksSameOn (aT bT : List String) : Bool :=
  let a := jsSetList aT
  let b := jsSetList bT
  if a.length = 0 || b.length = 0 then false
  else
    let overlap := (a.filter (fun t => b.contains t)).length
    let minSize := min a.length b.length
    if overlap ≥ 2 then true
    else if minSize ≤ 2 && overlap ≥ 1 then true
    else
      let union := (jsSetList (a ++ b)).length
      let u := if union = 0 then 1 else union
      decide ((45 : ℚ) / 100 ≤ (overlap : ℚ) / (u : ℚ))

/-- `venueLooksSame`, parameterized over the `venueTokens` function `vt`. -/
def venueLooksSame (vt : String → List String) (aTitle bTitle : String) : Bool :=
  venueLooksSameOn (vt aTitle) (vt bTitle)

/-- `slugTokenSet`: lowercase, split on `-`, trim, keep tokens of length
≥ 3 that are not stop words (deduplicated as a JS `Set`). -/
def slugTokenSet (value : String) : List String :=
  jsSetList (((strSplitOnChar (lowerStr value) '-').map trimStr).filter
    (fun t => t.length ≥ 3 && !(VENUE_STOP_WORDS.contains t)))

/-- `venueSlugMatches`: exact / substring containment against any
candidate first, then the token-overlap test over hyphen-split token
sets. -/
def venueSlugMatches (showVenueSlug : String) (candidates : List String) : Bool :=
  if showVenueSlug = "" then false
  else if candidates.any (fun c =>
      c ≠ "" && (c == showVenueSlug || strContains c showVenueSlug ||
        strContains showVenueSlug c)) then
    true
  else
    let showTokens := slugTokenSet showVenueSlug
    if showTokens.length = 0 then false
    else
      candidates.any (fun c =>
        let cTokens := slugTokenSet c
        let overlap := (showTokens.filter (fun t => cTokens.contains t)).length
        cTokens.length ≠ 0 &&
          (overlap ≥ 2 || (min showTokens.length cTokens.length ≤ 2 && overlap ≥ 1)))

/-! ## Geography classifier (`continentFromVenueCoverageTitle`) -/

/-- Keywords of the two Oceania regexes, in source order. -/
def oceaniaWords : List String :=
  ["australia", "sydney", "melbourne", "brisbane", "perth", "adelaide",
    "new zealand", "nz", "auckland", "wellington", "christchurch"]

/-- Keywords of the North America regex. -/
def northAmericaWords : List String :=
  ["united states", "usa", "u.s.a", "us", "canada", "mexico"]

/-- Keywords of the two Europe regexes. -/
def europeWords : List String :=
  ["uk", "united kingdom", "england", "scotland", "wales", "ireland",
    "london", "manchester", "glasgow", "dublin", "belfast", "brixton",
    "france", "paris", "germany", "berlin", "hamburg", "munich",
    "netherlands", "amsterdam", "belgium", "brussels", "spain", "madrid",
    "barcelona", "portugal", "lisbon", "italy", "rome", "milan",
    "sweden", "stockholm", "norway", "oslo", "denmark", "copenhagen",
    "finland", "helsinki", "austria", "vienna", "switzerland", "zurich",
    "poland", "warsaw", "czech", "prague", "hungary", "budapest",
    "greece", "athens", "bulgaria", "plovdiv"]

/-- Keywords of the Asia regex. -/
def asiaWords : List String :=
  ["japan", "tokyo", "osaka", "nagoya", "kyoto", "singapore", "hong kong",
    "taiwan", "seoul", "korea", "bangkok", "thailand"]

/-- Keywords of the South America regex. -/
def southAmericaWords : List String :=
  ["brazil", "rio", "sao paulo", "argentina", "buenos aires", "chile",
    "santiago", "colombia", "bogota"]

/-- Keywords of the Africa regex. -/
def africaWords : List String :=
  ["south africa", "cape town", "johannesburg", "morocco", "egypt"]

/-- `continentFromVenueCoverageTitle`: word-bounded keyword matching over
the lowercased concatenation, in the fixed priority order of the source.
Continents are the string literals the code uses. -/
def continentFromVenueCoverageTitle (venue coverage title : Option String) : String :=
  let hay := lowerStr (venue.getD "" ++ " " ++ coverage.getD "" ++ " " ++ title.getD "")
  if oceaniaWords.any (fun w => hayContainsWord hay w) then "Oceania"
  else if northAmericaWords.any (fun w => hayContainsWord hay w) then "North America"
  else if europeWords.any (fun w => hayContainsWord hay w) then "Europe"
  else if asiaWords.any (fun w => hayContainsWord hay w) then "Asia"
  else if southAmericaWords.any (fun w => hayContainsWord hay w) then "South America"
  else if africaWords.any (fun w => hayContainsWord hay w) then "Africa"
  else "Unknown"

/-! ## Recordings and Shows -/

/-- JS `a || b` for an optional string `a`: the fallback fires on both a
missing and an empty string. -/
def jsStrOr (a : Option String) (b : String) : String :=
  match a with
  | none => b
  | some s => if s = "" then b else s

/-- A derived Recording.  The location fields (`city`, `state`,
`country`, `venueText`, `locationText`) and the `artwork` URL of the
source are copied through the pipeline without influencing any verified
property and are omitted from the embedding. -/
structure Recording where
  identifier : String
  title : String
  showDate : String
  showKey : String
  continent : String
  downloads : ℚ
  avg_rating : ℚ
  num_reviews : ℚ
  hint : SourceHint
  score : ℚ
  deriving Repr, DecidableEq

/-- `"ORCHESTRA" | "RAVE" | "ACOUSTIC"`. -/
inductive SpecialTag where
  | ORCHESTRA
  | RAVE
  | ACOUSTIC
  deriving Repr, DecidableEq

/-- A list-endpoint Show (`ShowListItem`), with the same field omissions
as `Recording` (plus the per-page enrichment statistics, which are
absent up to pagination). -/
structure ShowListItem where
  showKey : String
  showDate : String
  title : String
  defaultId : String
  sourcesCount : ℕ
  continent : String
  plays : ℚ
  specialTag : Option SpecialTag := none
  deriving Repr, DecidableEq

/-- The body of the `map` in `buildRecordingsFromDocs`, parameterized
over `log10` and over `venueSlugFromTitle` (`vslug`), whose regex venue
extraction is kept abstract; no claim in scope depends on the slug text
itself. -/
def docToRecording (log10 : ℚ → ℚ) (vslug : Option String → String)
    (continentFilters : List String) (d : IaDoc) : Option Recording :=
  if !isKglwDoc d then none
  else
    match extractShowDate d with
    | none => none
    | some showDate =>
      let venueSlug := vslug d.title
      let showKey := showDate ++ "|" ++ venueSlug
      let showContinent := continentFromVenueCoverageTitle d.venue d.coverage d.title
      if continentFilters ≠ [] && !(continentFilters.contains showContinent) then none
      else
        some
          { identifier := d.identifier
            title := jsStrOr d.title d.identifier
            showDate
            showKey
            continent := showContinent
            downloads := parseNum d.downloads
            avg_rating := parseNum d.avg_rating
            num_reviews := parseNum d.num_reviews
            hint := sourceHint d.identifier d.title
            score := scoreSource log10 d }

/-- `buildRecordingsFromDocs`: map then drop the `null`s. -/
def buildRecordingsFromDocs (log10 : ℚ → ℚ) (vslug : Option String → String)
    (input : List IaDoc) (continentFilters : List String) : List Recording :=
  input.filterMap (docToRecording log10 vslug continentFilters)

/-- A first-pass group of `buildShowsFromRecordings` (same field
omissions as `Recording`). -/
structure ShowGroup where
  showKey : String
  showDate : String
  title : String
  sources : List Recording
  continent : String
  deriving Repr, DecidableEq

/-- Group creation for the first recording of a `showKey`. -/
def newGroup (r : Recording) : ShowGroup :=
  { showKey := r.showKey, showDate := r.showDate, title := r.title,
    sources := [r], continent := r.continent }

/-- The mutation applied to an existing group in the exact (first) pass:
push the source, keep the longest title, keep the first
non-`"Unknown"` continent. -/
def groupAbsorb (g : ShowGroup) (r : Recording) : ShowGroup :=
  { g with
    sources := g.sources ++ [r]
    title := if g.title.length < r.title.length then r.title else g.title
    continent :=
      if g.continent = "Unknown" && r.continent ≠ "Unknown" then r.continent
      else g.continent }

/-- One step of the exact pass: JS `Map` keyed by `showKey` with
insertion-order iteration, modelled as an ordered association list. -/
def addRecording : List ShowGroup → Recording → List ShowGroup
  | [], r => [newGroup r]
  | g :: gs, r =>
    if g.showKey = r.showKey then groupAbsorb g r :: gs
    else g :: addRecording gs r

/-- The exact pass over all recordings. -/
def groupRecordings (rs : List Recording) : List ShowGroup :=
  rs.foldl addRecording []

/-- The mutation applied to an existing same-date group in the fuzzy
pass. -/
def mergeGroupInto (e g : ShowGroup) : ShowGroup :=
  { e with
    sources := e.sources ++ g.sources
    title := if e.title.length < g.title.length then g.title else e.title
    continent :=
      if e.continent = "Unknown" && g.continent ≠ "Unknown" then g.continent
      else e.continent }

/-- Merge a group into the per-date list: `list.find(...)` followed by
either a push or an in-place merge — the incoming group merges into the
FIRST existing group on the date that passes `venueLooksSame`. -/
def mergeIntoDateList (vt : String → List String) : List ShowGroup → ShowGroup → List ShowGroup
  | [], g => [g]
  | x :: xs, g =>
    if venueLooksSame vt x.title g.title then mergeGroupInto x g :: xs
    else x :: mergeIntoDateList vt xs g

/-- One step of the fuzzy pass over the date-keyed `Map` (ordered
association list, like the JS `Map`). -/
def mergeStep (vt : String → List String) :
    List (String × List ShowGroup) → ShowGroup → List (String × List ShowGroup)
  | [], g => [(g.showDate, [g])]
  | (d, gs) :: rest, g =>
    if d = g.showDate then (d, mergeIntoDateList vt gs g) :: rest
    else (d, gs) :: mergeStep vt rest g

/-- Both grouping passes; the flattening mirrors
`Array.from(mergedByDate.values()).flat()`. -/
def mergedGroups (vt : String → List String) (rs : List Recording) : List ShowGroup :=
  ((((groupRecordings rs).foldl (mergeStep vt) []).map Prod.snd).flatten)

/-- Stable insertion into a sorted prefix, used to model JS
`Array.prototype.sort`. -/
def insertSorted (le : α → α → Bool) (x : α) : List α → List α
  | [] => [x]
  | y :: ys => if le x y then x :: y :: ys else y :: insertSorted le x ys

/-- JS `Array.prototype.sort(cmp)` for a consistent comparator, modelled
as a stable insertion sort with `le a b := cmp(a,b) ≤ 0` (ES2019+ sorts
are stable, and ES `SortCompare` treats a `NaN` comparator result as
`+0`; a stable sort with a consistent comparator has a unique result). -/
def jsSortBy (le : α → α → Bool) : List α → List α
  | [] => []
  | x :: xs => insertSorted le x (jsSortBy le xs)

/-- `g.sources.sort((a, b) => b.score - a.score)`. -/
def sortSourcesDesc (sources : List Recording) : List Recording :=
  jsSortBy (fun a b => decide (b.score - a.score ≤ 0)) sources

/-- Finalization of one merged group into a `ShowListItem`.  In the
source `best = sources[0]` is only read on a non-empty group (guaranteed
— see the C7 theorem); the empty case is given the dummy `""`. -/
def finalizeGroup (g : ShowGroup) : ShowListItem :=
  let sources := sortSourcesDesc g.sources
  let plays := sources.foldl (fun sum s => sum + s.downloads) 0
  { showKey := g.showKey
    showDate := g.showDate
    title := g.title
    defaultId := ((sources.head?).map (fun b => b.identifier)).getD ""
    sourcesCount := sources.length
    continent := g.continent
    plays }

/-- `buildShowsFromRecordings`. -/
def buildShowsFromRecordings (vt : String → List String) (rs : List Recording) :
    List ShowListItem :=
  (mergedGroups vt rs).map finalizeGroup

/-! ## Sorting (`sortShows`) -/

/-- Numeric value of a digit character. -/
def digitVal (c : Char) : ℕ :=
  c.toNat - 48

/-- Gregorian leap year. -/
def isLeapYear (y : ℕ) : Bool :=
  (y % 4 == 0 && y % 100 != 0) || y % 400 == 0

/-- Days in a month. -/
def daysInMonth (y m : ℕ) : ℕ :=
  if m = 2 then (if isLeapYear y then 29 else 28)
  else if m = 4 || m = 6 || m = 9 || m = 11 then 30
  else 31

/-- Model of JS `Date.parse` restricted to the date-only ISO strings the
pipeline produces (`YYYY-MM-DD`): `none` is `NaN` (non-date strings and
calendar-invalid dates such as `"2023-02-31"`, which major engines
reject); a valid date maps to `y*10000 + m*100 + d`, which is
order-isomorphic to the epoch time value on this shape — the comparators
only ever use differences of two values, so only the order matters. -/
def isoDateVal? (s : String) : Option ℚ :=
  match s.data with
  | [y1, y2, y3, y4, h1, m1, m2, h2, d1, d2] =>
    if y1.isDigit && y2.isDigit && y3.isDigit && y4.isDigit && h1 == '-' &&
        m1.isDigit && m2.isDigit && h2 == '-' && d1.isDigit && d2.isDigit then
      let y := ((digitVal y1 * 10 + digitVal y2) * 10 + digitVal y3) * 10 + digitVal y4
      let m := digitVal m1 * 10 + digitVal m2
      let d := digitVal d1 * 10 + digitVal d2
      if 1 ≤ m && m ≤ 12 && 1 ≤ d && d ≤ daysInMonth y m then
        some ((y * 10000 + m * 100 + d : ℕ) : ℚ)
      else none
    else none
  | _ => none

/-- `Date.parse(x) - Date.parse(y)` as used inside the comparators; a
`NaN` difference makes the comparator return `NaN`, which ES
`SortCompare` replaces by `+0`. -/
def jsDateDiff (x y : String) : ℚ :=
  match isoDateVal? x, isoDateVal? y with
  | some a, some b => a - b
  | _, _ => 0

/-- The comparator of `sortShows` (after the `SortCompare` `NaN → +0`
folding); `plays` is always a number here, so `b.plays || 0` is
`b.plays` up to the value `0` itself, for which both read `0`. -/
def showCmp (sort : String) (a b : ShowListItem) : ℚ :=
  if sort = "oldest" then jsDateDiff a.showDate b.showDate
  else if sort = "most" || sort = "most-played" || sort = "most_played" then
    (if b.plays - a.plays ≠ 0 then b.plays - a.plays
      else jsDateDiff b.showDate a.showDate)
  else if sort = "least" || sort = "least-played" || sort = "least_played" then
    (if a.plays - b.plays ≠ 0 then a.plays - b.plays
      else jsDateDiff b.showDate a.showDate)
  else jsDateDiff b.showDate a.showDate

/-- `sortShows`. -/
def sortShows (shows : List ShowListItem) (sort : String) : List ShowListItem :=
  jsSortBy (fun a b => decide (showCmp sort a b ≤ 0)) shows

/-! ## Special-event tags (`applySpecialTagsToShows`) -/

/-- One external tag entry (`KglwTagEntry`). -/
structure KglwTagEntry where
  tag : SpecialTag
  venueCandidates : List String
  deriving Repr, DecidableEq

/-- The per-show body of `applySpecialTagsToShows`. -/
def tagOneShow (byDate : List (String × List KglwTagEntry)) (s : ShowListItem) :
    ShowListItem :=
  let entries := (byDate.lookup s.showDate).getD []
  match entries with
  | [] => s
  | [e] => { s with specialTag := some e.tag }
  | _ =>
    let venueSlug := lowerStr ((strSplitOnChar s.showKey '|').getD 1 "")
    match entries.find? (fun e => venueSlugMatches venueSlug e.venueCandidates) with
    | none => s
    | some e => { s with specialTag := some e.tag }

/-- `applySpecialTagsToShows` (the date-keyed `Map` is an ordered
association list). -/
def applySpecialTagsToShows (shows : List ShowListItem)
    (byDate : List (String × List KglwTagEntry)) : List ShowListItem :=
  shows.map (tagOneShow byDate)

/-! ## Show-type filter (`filterByShowTypes`) -/

/-- `ShowTypeFilter`. -/
inductive ShowTypeFilter where
  | ORCHESTRA
  | RAVE
  | ACOUSTIC
  | STANDARD
  deriving Repr, DecidableEq

/-- `filterByShowTypes`. -/
def filterByShowTypes (shows : List ShowListItem) (filters : List ShowTypeFilter) :
    List ShowListItem :=
  if filters = [] then shows
  else
    shows.filter (fun s =>
      match s.specialTag with
      | some .ORCHESTRA => filters.contains ShowTypeFilter.ORCHESTRA
      | some .RAVE => filters.contains ShowTypeFilter.RAVE
      | some .ACOUSTIC => filters.contains ShowTypeFilter.ACOUSTIC
      | none => filters.contains ShowTypeFilter.STANDARD)

/-! ## Free-text filter over the show list -/

/-- The searchable haystack of one show (the omitted location fields are
among the joined parts in the source; they do not affect the claims in
scope, all of which use an empty query). -/
def showSearchHay (s : ShowListItem) : String :=
  let normalizedShowKey := String.mk (s.showKey.data.map
    (fun c => if c == '-' then ' ' else c))
  lowerStr (joinSpace (([s.showDate, s.title, s.continent, s.showKey,
    normalizedShowKey]).filter (fun t => t ≠ "")))

/-- The `query ? sortedShows.filter(...) : sortedShows` step. -/
def applySearch (shows : List ShowListItem) (query : String) : List ShowListItem :=
  if query = "" then shows
  else shows.filter (fun s => strContains (showSearchHay s) (lowerStr query))

/-! ## Page-parameter parsing and pagination -/

/-- Value of a digit run. -/
def natOfDigits (l : List Char) : ℕ :=
  l.foldl (fun n c => n * 10 + digitVal c) 0

/-- The non-negative core of the JS `Number(...)` string coercion for
plain decimal notation: digits with an optional fraction (`"12"`,
`"12.5"`, `".5"`, `"12."`); everything else is `NaN` (`none`).  The full
coercion also accepts hex/exponent/`Infinity` forms, which no claim in
scope exercises. -/
def jsNumCore (l : List Char) : Option ℚ :=
  let ip := l.takeWhile (fun c => c ≠ '.')
  let rest := l.dropWhile (fun c => c ≠ '.')
  match rest with
  | [] => if ip ≠ [] && ip.all Char.isDigit then some (natOfDigits ip) else none
  | _ :: fp =>
    if !(fp.any (fun c => c == '.')) && ip.all Char.isDigit && fp.all Char.isDigit &&
        (ip ≠ [] || fp ≠ []) then
      some ((natOfDigits ip : ℚ) + (natOfDigits fp : ℚ) / ((10 : ℚ) ^ fp.length))
    else none

/-- JS `Number(s)` on the decimal fragment: trimmed empty string is `0`,
an optional sign, then `jsNumCore`; `none` is `NaN`. -/
def jsNumber? (s : String) : Option ℚ :=
  let t := trimStr s
  if t = "" then some 0
  else
    match t.data with
    | '-' :: r => (jsNumCore r).map (fun q => -q)
    | '+' :: r => jsNumCore r
    | r => jsNumCore r

/-- `Math.max(1, x)`: `NaN` absorbs (`Math.max(1, NaN) = NaN`). -/
def jsMax1 (x : Option ℚ) : Option ℚ :=
  x.map (fun q => max 1 q)

/-- `const page = Math.max(1, Number(sp.get("page") || "1"))`: a missing
or empty parameter falls back to `"1"`. -/
def parsePageParam (pageParam : Option String) : Option ℚ :=
  let raw := match pageParam with
    | none => "1"
    | some s => if s = "" then "1" else s
  jsMax1 (jsNumber? raw)

/-- ES `ToIntegerOrInfinity`: `NaN → 0`, otherwise truncation toward
zero. -/
def toIntegerOrZero (x : Option ℚ) : ℤ :=
  match x with
  | none => 0
  | some q => if q < 0 then -⌊-q⌋ else ⌊q⌋

/-- Clamping of a relative slice index to `[0, len]` per
`Array.prototype.slice`. -/
def sliceBound (len rel : ℤ) : ℤ :=
  if rel < 0 then max (len + rel) 0 else min rel len

/-- `Array.prototype.slice(s, e)` with possibly-`NaN` numeric bounds. -/
def jsSlice (l : List α) (s e : Option ℚ) : List α :=
  let len : ℤ := l.length
  let ks := sliceBound len (toIntegerOrZero s)
  let ke := sliceBound len (toIntegerOrZero e)
  (l.drop ks.toNat).take (ke - ks).toNat

/-- The slice of the response the pagination claims are about. -/
structure PageResult where
  items : List ShowListItem
  hasMore : Bool
  venueTotal : ℕ
  page : Option ℚ
  deriving Repr, DecidableEq

/-- The app-pagination tail of the list `GET` (`PAGE_SIZE = 25`):
`start = (page-1)*PAGE_SIZE`, `items = searchedShows.slice(start,
start+PAGE_SIZE)`, `hasMore = start+PAGE_SIZE < searchedShows.length`,
`venueTotal = searchedShows.length`.  (The in-place re-sort of the page
for the two show-length sorts permutes `items` without changing its
length or membership and is not exercised by any claim in scope.) -/
def paginate (shows : List ShowListItem) (pageParam : Option String) : PageResult :=
  let page := parsePageParam pageParam
  let start := page.map (fun p => (p - 1) * 25)
  let items := jsSlice shows start (start.map (fun st => st + 25))
  let hasMore :=
    match start with
    | none => false
    | some st => decide (st + 25 < (shows.length : ℚ))
  { items, hasMore, venueTotal := shows.length, page }

/-- The local (post-fetch) part of the list `GET`: recordings → shows →
special tags → show-type filter → sort → free-text filter → pagination.
The facet computation and the song-search block do not alter `items`,
`hasMore` or `venueTotal` and are omitted. -/
def listEndpointLocal (log10 : ℚ → ℚ) (vt : String → List String)
    (vslug : Option String → String) (docs : List IaDoc)
    (continentFilters : List String) (showTypes : List ShowTypeFilter)
    (byDate : List (String × List KglwTagEntry)) (sort query : String)
    (pageParam : Option String) : PageResult :=
  let recordings := buildRecordingsFromDocs log10 vslug docs continentFilters
  let shows := buildShowsFromRecordings vt recordings
  let taggedShows := applySpecialTagsToShows shows byDate
  let typedShows := filterByShowTypes taggedShows showTypes
  let sortedShows := sortShows typedShows sort
  let searchedShows := applySearch sortedShows query
  paginate searchedShows pageParam

/-! ## The primary pagination loop of the list `GET` (claim C3)

An upstream page fetch either fails at the transport level (non-2xx) or
yields a batch of documents. -/

/-- Outcome of one `advancedsearch` page fetch. -/
inductive PageOutcome where
  | fail
  | ok (batch : List IaDoc)
  deriving Repr, DecidableEq

/-- The `while (iaPage <= MAX_IA_PAGES)` loop of the list `GET`:
a non-ok page returns the 502 error naming that page (modelled by the
page number), an empty batch breaks with the accumulated docs, a
non-empty batch accumulates and advances. -/
def collectIaDocsAux (f : ℕ → PageOutcome) : ℕ → ℕ → List IaDoc → Except ℕ (List IaDoc)
  | 0, _, docs => .ok docs
  | fuel + 1, iaPage, docs =>
    match f iaPage with
    | .fail => .error iaPage
    | .ok [] => .ok docs
    | .ok batch => collectIaDocsAux f fuel (iaPage + 1) (docs ++ batch)

/-- The whole pagination loop, from page 1 up to `maxPages`
(`MAX_IA_PAGES` is 2 with a free-text query, else 3). -/
def collectIaDocs (f : ℕ → PageOutcome) (maxPages : ℕ) : Except ℕ (List IaDoc) :=
  collectIaDocsAux f maxPages 1 []

/-! ## Cache-write disciplines (claim C4) -/

/-- The list `GET` at list-response-cache granularity: a loop error is
returned as the 502 response before the cache write at the end of the
handler; otherwise the payload is built and stored. -/
structure ShowsGetModel where
  response : Except ℕ (List IaDoc)
  cacheWritten : Bool
  deriving Repr

/-- Control flow of the list `GET` around `showsResponseCache.set`. -/
def showsGetCacheModel (f : ℕ → PageOutcome) (maxPages : ℕ) : ShowsGetModel :=
  match collectIaDocs f maxPages with
  | .error i => { response := .error i, cacheWritten := false }
  | .ok docs => { response := .ok docs, cacheWritten := true }

/-- `SHOW_METADATA_CACHE_TTL_MS`. -/
def SHOW_METADATA_CACHE_TTL_MS : ℚ := 1000 * 60 * 5

/-- `Map.set` on an association list (key-lookup-equivalent to the JS
`Map`; iteration order of these caches is never observed). -/
def mapSet (cache : List (String × α)) (k : String) (v : α) : List (String × α) :=
  (k, v) :: cache.filter (fun kv => kv.1 ≠ k)

/-- The show-metadata `GET` (`src/app/api/ia/show-metadata/route.ts`),
with the metadata payload opaque (`α`) and the fetch outcome supplied
(`none` = non-ok response).  Returns the HTTP status-or-payload and the
cache after the request. -/
def showMetadataGet (id : String) (cache : List (String × (ℚ × α))) (now : ℚ)
    (fetchOutcome : Option α) : Except ℕ α × List (String × (ℚ × α)) :=
  let id := trimStr id
  if id = "" then (.error 400, cache)
  else
    match cache.lookup id with
    | some (expiresAt, payload) =>
      if now < expiresAt then (.ok payload, cache)
      else
        match fetchOutcome with
        | none => (.error 502, cache)
        | some payload =>
          (.ok payload, mapSet cache id (now + SHOW_METADATA_CACHE_TTL_MS, payload))
    | none =>
      match fetchOutcome with
      | none => (.error 502, cache)
      | some payload =>
        (.ok payload, mapSet cache id (now + SHOW_METADATA_CACHE_TTL_MS, payload))

/-! ### Playback statistics (`fetchShowPlaybackStats`) -/

/-- One metadata file row (`IaMetadataFile`); `length` may be a number in
the source and is modelled by its string rendering, as every use goes
through `String(...)`. -/
structure IaMetadataFile where
  name : Option String := none
  title : Option String := none
  track : Option String := none
  length : Option String := none
  deriving Repr, DecidableEq

/-- `isAudioName`. -/
def isAudioName (name : String) : Bool :=
  let n := lowerStr name
  strEndsWith n ".mp3" || strEndsWith n ".flac" || strEndsWith n ".ogg" ||
    strEndsWith n ".m4a" || strEndsWith n ".wav"

/-- `audioExtRank`. -/
def audioExtRank (name : String) : ℕ :=
  let n := lowerStr name
  if strEndsWith n ".flac" then 1
  else if strEndsWith n ".mp3" then 2
  else if strEndsWith n ".m4a" then 3
  else if strEndsWith n ".ogg" then 4
  else if strEndsWith n ".wav" then 5
  else 999

/-- `trackSetRank`. -/
def trackSetRank (fileName : String) : ℕ :=
  let n := lowerStr fileName
  if strContains n "edited" then 1
  else if strContains n "stereo" then 2
  else if strContains n "audience" || strContains n "matrix" ||
      strContains n "soundboard" then 3
  else if strContains n "og" then 10
  else if strContains n "original" then 11
  else if strContains n "4ch" || strContains n "4-ch" || strContains n "4 channel" ||
      strContains n "4-channel" then 12
  else 5

/-- `parseTrackNum`: `none` models `Number.POSITIVE_INFINITY` (no track
field, or no leading digits). -/
def parseTrackNum (t : Option String) : Option ℕ :=
  match t with
  | none => none
  | some s =>
    if s = "" then none
    else
      let ds := s.data.takeWhile Char.isDigit
      if ds = [] then none else some (natOfDigits ds)

/-- `parseLengthToSeconds`: plain decimal seconds (floored), `mm:ss`, or
`hh:mm:ss`. -/
def parseLengthToSeconds (raw : Option String) : Option ℕ :=
  match raw with
  | none => none
  | some r =>
    let s := trimStr r
    if s = "" then none
    else
      let ip := s.data.takeWhile Char.isDigit
      let rest := s.data.drop ip.length
      if ip ≠ [] && (rest = [] || (rest.head? = some '.' && rest.tail ≠ [] &&
          rest.tail.all Char.isDigit)) then
        some (natOfDigits ip)
      else
        let parts := (strSplitOnChar s ':').map trimStr
        if parts.any (fun p => p = "" || !(p.data.all Char.isDigit)) then none
        else
          match parts with
          | [mm, ss] => some (natOfDigits mm.data * 60 + natOfDigits ss.data)
          | [hh, mm, ss] =>
            some (natOfDigits hh.data * 3600 + natOfDigits mm.data * 60 +
              natOfDigits ss.data)
          | _ => none

/-- The comparator of the `picked.sort` (track number ascending with
`Infinity` for missing, then name order; `localeCompare` is modelled as
code-unit order on the ASCII file names). -/
def pickedFileLe (a b : IaMetadataFile) : Bool :=
  let ta := parseTrackNum a.track
  let tb := parseTrackNum b.track
  if ta = tb then a.name.getD "" ≤ b.name.getD ""
  else
    match ta, tb with
    | some x, some y => x ≤ y
    | some _, none => true
    | none, _ => false

/-- The deduplicating accumulation over the picked files: `seen` keys
are `title.toLowerCase() + "|" + lenRaw`; each new key adds its parsed
seconds (when parseable) to the total. -/
def accumPicked (acc : List String × ℕ) (f : IaMetadataFile) : List String × ℕ :=
  let title := jsStrOr f.title (jsStrOr f.name "")
  let lenRaw := jsStrOr f.length ""
  let key := lowerStr title ++ "|" ++ lenRaw
  if acc.1.contains key then acc
  else
    match parseLengthToSeconds f.length with
    | some sec => (acc.1 ++ [key], acc.2 + sec)
    | none => (acc.1 ++ [key], acc.2)

/-- The result record of `fetchShowPlaybackStats`. -/
structure PlaybackStats where
  showLengthSeconds : Option ℕ
  showTrackCount : Option ℕ
  deriving Repr, DecidableEq

/-- The statistics computed from a successfully fetched file list. -/
def computePlaybackStats (files : List IaMetadataFile) : PlaybackStats :=
  let audioAll := files.filter (fun f =>
    (f.name.getD "") ≠ "" && isAudioName (f.name.getD ""))
  match audioAll with
  | [] => { showLengthSeconds := none, showTrackCount := none }
  | _ =>
    let bestSet := ((audioAll.map (fun f => trackSetRank (f.name.getD ""))).min?).getD 0
    let inSet := audioAll.filter (fun f => trackSetRank (f.name.getD "") = bestSet)
    let bestExt := ((inSet.map (fun f => audioExtRank (f.name.getD ""))).min?).getD 0
    let picked := inSet.filter (fun f => audioExtRank (f.name.getD "") = bestExt)
    let sorted := jsSortBy pickedFileLe picked
    let acc := sorted.foldl accumPicked ([], 0)
    { showLengthSeconds := if acc.2 > 0 then some acc.2 else none
      showTrackCount := if acc.1.length > 0 then some acc.1.length else none }

/-- `fetchShowPlaybackStats`: the permanent (no-TTL) per-identifier
stats cache; `a1`/`a2` are the two timed fetch attempts (`none` = the
attempt failed or timed out, which `fetchMetadataWithTimeout` converts
to `null`); the entry is stored only for a computed (non-null) result.
Returns the stats and the cache after the call. -/
def fetchShowPlaybackStats (cache : List (String × PlaybackStats)) (identifier : String)
    (a1 a2 : Option (List IaMetadataFile)) :
    PlaybackStats × List (String × PlaybackStats) :=
  match cache.lookup identifier with
  | some cached => (cached, cache)
  | none =>
    match (match a1 with | some m => some m | none => a2) with
    | none => ({ showLengthSeconds := none, showTrackCount := none }, cache)
    | some files =>
      let out := computePlaybackStats files
      if out.showTrackCount ≠ none || out.showLengthSeconds ≠ none then
        (out, mapSet cache identifier out)
      else (out, cache)

/-! ### The special-event tag cache (`getKglwSpecialTagsByDate`) -/

/-- One row of the external setlist service (`KglwShowRow`); `artist_id`
is the `Number(...)` coercion of the field. -/
structure KglwShowRow where
  showdate : Option String := none
  showtitle : Option String := none
  venuename : Option String := none
  location : Option String := none
  city : Option String := none
  artist_id : Option ℚ := none
  deriving Repr, DecidableEq

/-- Outcome of one `fetchKglwShowsForTitle` call: a thrown network
error, a non-2xx response, or a parsed row list. -/
inductive TagFetchOutcome where
  | threw
  | httpFail
  | ok (rows : List KglwShowRow)
  deriving Repr, DecidableEq

/-- `fetchKglwShowsForTitle` swallows a non-2xx response into `[]` but
lets a thrown network error propagate (to the caller's `catch`). -/
def kglwRowsOf : TagFetchOutcome → Except Unit (List KglwShowRow)
  | .threw => .error ()
  | .httpFail => .ok []
  | .ok rows => .ok rows

/-- `/^\d{4}-\d{2}-\d{2}$/` (a full-string match, digits only — no range
checks). -/
def isFullDateShape (s : String) : Bool :=
  match s.data with
  | [a, b, c, d, h1, e, f, h2, g, i] =>
    a.isDigit && b.isDigit && c.isDigit && d.isDigit && h1 == '-' &&
      e.isDigit && f.isDigit && h2 == '-' && g.isDigit && i.isDigit
  | _ => false

/-- The slugified venue-candidate set of one external row. -/
def rowCandidates (row : KglwShowRow) : List String :=
  jsSetList ((([row.venuename, row.city, row.location]).map
    (fun s => slugify (s.getD ""))).filter (fun c => c ≠ ""))

/-- Ordered-association-list append used for `byDate.get(date) || []`
followed by `push` and `set`. -/
def assocAppend (m : List (String × List KglwTagEntry)) (k : String)
    (e : KglwTagEntry) : List (String × List KglwTagEntry) :=
  match m with
  | [] => [(k, [e])]
  | (d, l) :: rest =>
    if d = k then (d, l ++ [e]) :: rest
    else (d, l) :: assocAppend rest k e

/-- The row loop of `getKglwSpecialTagsByDate` for one tag's rows. -/
def addTagRows (tag : SpecialTag) (rows : List KglwShowRow)
    (byDate : List (String × List KglwTagEntry)) :
    List (String × List KglwTagEntry) :=
  rows.foldl (fun m row =>
    if row.artist_id ≠ some 1 then m
    else
      let date := row.showdate.getD ""
      if !(isFullDateShape date) then m
      else assocAppend m date { tag, venueCandidates := rowCandidates row }) byDate

/-- `KGLW_TAG_CACHE_TTL_MS` (12 hours). -/
def KGLW_TAG_CACHE_TTL_MS : ℚ := 1000 * 60 * 60 * 12

/-- `getKglwSpecialTagsByDate` at cache granularity.  The module-level
cache state is `none` or `(expiresAt, byDate)`.  The three fetches (one
per tag title, in `Object.entries` order ORCHESTRA, RAVE, ACOUSTIC) are
supplied as outcomes.  A thrown fetch reaches the `catch`: the function
returns an empty map and the cache is left as it was.  Otherwise the map
is built — non-2xx fetches having been swallowed into empty row lists —
and stored unconditionally. -/
def getKglwSpecialTagsByDate (state : Option (ℚ × List (String × List KglwTagEntry)))
    (now : ℚ) (fo fr fa : TagFetchOutcome) :
    List (String × List KglwTagEntry) × Option (ℚ × List (String × List KglwTagEntry)) :=
  match state with
  | some (expiresAt, byDate) =>
    if expiresAt > now then (byDate, state)
    else
      match kglwRowsOf fo, kglwRowsOf fr, kglwRowsOf fa with
      | .ok ro, .ok rr, .ok ra =>
        let byDate := addTagRows .ACOUSTIC ra
          (addTagRows .RAVE rr (addTagRows .ORCHESTRA ro []))
        (byDate, some (now + KGLW_TAG_CACHE_TTL_MS, byDate))
      | _, _, _ => ([], state)
  | none =>
    match kglwRowsOf fo, kglwRowsOf fr, kglwRowsOf fa with
    | .ok ro, .ok rr, .ok ra =>
      let byDate := addTagRows .ACOUSTIC ra
        (addTagRows .RAVE rr (addTagRows .ORCHESTRA ro []))
      (byDate, some (now + KGLW_TAG_CACHE_TTL_MS, byDate))
    | _, _, _ => ([], state)

/-- Stated from the spec's words, for comparison in claim C8 only: "the
same token-overlap heuristic as §4.5" (the fuzzy-merge similarity test)
applied to the venue slug's and each candidate's hyphen-split token
sets. -/
def specSlugFuzzyMatch (slug : String) (candidates : List String) : Bool :=
  candidates.any (fun c => venueLooksSameOn (slugTokenSet slug) (slugTokenSet c))

/-! ## Generic facts about the sort model -/

theorem insertSorted_perm (le : α → α → Bool) (x : α) (l : List α) :
    (insertSorted le x l).Perm (x :: l) := by
  induction l with
  | nil => simp [insertSorted]
  | cons y ys ih =>
    by_cases h : le x y = true
    · simp [insertSorted, h]
    · simp only [insertSorted, if_neg h]
      exact (ih.cons y).trans (List.Perm.swap x y ys)

theorem jsSortBy_perm (le : α → α → Bool) (l : List α) :
    (jsSortBy le l).Perm l := by
  induction l with
  | nil => simp [jsSortBy]
  | cons x xs ih =>
    exact (insertSorted_perm le x (jsSortBy le xs)).trans (ih.cons x)

theorem pairwise_insertSorted {P : α → Prop} {M : α → α → Prop} {le : α → α → Bool}
    (htot : ∀ a b, le a b = true ∨ le b a = true)
    (hle : ∀ a b, P a → P b → le a b = true → M a b)
    (htrans : ∀ a b c, P a → P b → P c → M a b → M b c → M a c)
    {x : α} {l : List α} (hx : P x) (hl : ∀ y ∈ l, P y) (hpw : l.Pairwise M) :
    (insertSorted le x l).Pairwise M := by
  induction l with
  | nil => simp [insertSorted]
  | cons y ys ih =>
    rcases List.pairwise_cons.mp hpw with ⟨hy, hys⟩
    have hPy : P y := hl y (by simp)
    by_cases h : le x y = true
    · simp only [insertSorted, if_pos h]
      refine List.pairwise_cons.mpr ⟨?_, hpw⟩
      intro z hz
      rcases List.mem_cons.mp hz with rfl | hz'
      · exact hle x z hx hPy h
      · exact htrans x y z hx hPy (hl z (by simp [hz']))
          (hle x y hx hPy h) (hy z hz')
    · simp only [insertSorted, if_neg h]
      refine List.pairwise_cons.mpr
        ⟨?_, ih (fun u hu => hl u (by simp [hu])) hys⟩
      intro z hz
      have hz' : z = x ∨ z ∈ ys := by
        have := (insertSorted_perm le x ys).mem_iff.mp hz
        simpa using this
      rcases hz' with rfl | hz'
      · have hyx : le y z = true := by
          rcases htot z y with ht | ht
          · exact absurd ht h
          · exact ht
        exact hle y z hPy hx hyx
      · exact hy z hz'

theorem pairwise_jsSortBy {P : α → Prop} {M : α → α → Prop} {le : α → α → Bool}
    (htot : ∀ a b, le a b = true ∨ le b a = true)
    (hle : ∀ a b, P a → P b → le a b = true → M a b)
    (htrans : ∀ a b c, P a → P b → P c → M a b → M b c → M a c)
    {l : List α} (hl : ∀ y ∈ l, P y) :
    (jsSortBy le l).Pairwise M := by
  induction l with
  | nil => simp [jsSortBy]
  | cons x xs ih =>
    have hxs : ∀ y ∈ xs, P y := fun y hy => hl y (by simp [hy])
    refine pairwise_insertSorted htot hle htrans (hl x (by simp)) ?_ (ih hxs)
    intro y hy
    exact hxs y ((jsSortBy_perm le xs).mem_iff.mp hy)

theorem jsSlice_sublist (l : List α) (s e : Option ℚ) :
    (jsSlice l s e).Sublist l := by
  unfold jsSlice
  exact (List.take_sublist _ _).trans (List.drop_sublist _ _)

/-! ## Claim C1 — the recording scorers -/

/-- C1 (amended): both recording scorers compute
`log10(downloads+1)*10 + avg_rating*2 + log10(num_reviews+1) + bonus`
with missing/non-numeric counts as 0, but with different source-hint
bonuses: the list endpoint (`src/app/api/ia/shows/route.ts`) uses
+100 (SBD) / +30 (MATRIX) / 0, while the detail endpoint
(`src/app/api/ia/show/route.ts`) uses +3 (SBD) / +1 (MATRIX) / 0. -/
theorem claim_C1_amended (log10 : ℚ → ℚ) (d : IaDoc) :
    scoreSource log10 d =
      log10 (parseNum d.downloads + 1) * 10 + parseNum d.avg_rating * 2 +
        log10 (parseNum d.num_reviews + 1) +
        (match sourceHint d.identifier d.title with
          | .SBD => 100 | .MATRIX => 30 | _ => 0) ∧
    showDetailScoreSource log10 d =
      log10 (parseNum d.downloads + 1) * 10 + parseNum d.avg_rating * 2 +
        log10 (parseNum d.num_reviews + 1) +
        (match sourceHint d.identifier d.title with
          | .SBD => 3 | .MATRIX => 1 | _ => 0) := by
  constructor <;>
    · cases h : sourceHint d.identifier d.title <;>
        simp [scoreSource, showDetailScoreSource, h]

/-- C1 counterexample: the two scorers disagree, so they do not both
compute the claimed formula (whose bonus is +100 for an SBD hint): on
the document with identifier `"sbd"` and every other field absent, and
with the same `log10` function, the list-endpoint scorer — which is
exactly the claimed formula — yields 100 while the detail-endpoint
scorer yields 3. -/
theorem claim_C1_counterexample :
    showDetailScoreSource (fun _ => 0) { identifier := "sbd" } = 3 ∧
    scoreSource (fun _ => 0) { identifier := "sbd" } = 100 ∧
    (3 : ℚ) ≠ 100 := by
  have h : sourceHint "sbd" none = SourceHint.SBD := by decide
  refine ⟨?_, ?_, by norm_num⟩
  · simp [showDetailScoreSource, h, parseNum]
  · simp [scoreSource, h, parseNum]

/-! ## Claim C5 — the fuzzy merge predicate and first-match merging -/

theorem jsSetList_ne_nil {l : List String} (h : l ≠ []) : jsSetList l ≠ [] := by
  cases l with
  | nil => exact absurd rfl h
  | cons x xs => simp [jsSetList, jsSetListAux]

theorem venueLooksSameOn_iff (aT bT : List String) :
    venueLooksSameOn aT bT = true ↔
      (let a := jsSetList aT
       let b := jsSetList bT
       let overlap := (a.filter (fun t => b.contains t)).length
       let union := (jsSetList (a ++ b)).length
       overlap ≥ 2 ∨ (min a.length b.length ≤ 2 ∧ overlap ≥ 1) ∨
        (0 < union ∧ (45 : ℚ) / 100 ≤ (overlap : ℚ) / (union : ℚ))) := by
  simp only [venueLooksSameOn]
  set a := jsSetList aT with ha
  set b := jsSetList bT with hb
  set overlap := (a.filter (fun t => b.contains t)).length with hov
  set union := (jsSetList (a ++ b)).length with hun
  by_cases h0 : a.length = 0 ∨ b.length = 0
  · have hov0 : overlap = 0 := by
      rcases h0 with h | h
      · rw [hov, List.length_eq_zero.mp h]; simp
      · rw [hov]
        have hb0 : b = [] := List.length_eq_zero.mp h
        simp [hb0, List.filter_eq_nil_iff]
    have hcond : (a.length = 0 || b.length = 0) = true := by
      rcases h0 with h | h <;> simp [h]
    rw [if_pos hcond]
    simp only [hov0]
    constructor
    · intro h; exact absurd h (by simp)
    · rintro (h | ⟨_, h⟩ | ⟨hu, h⟩)
      · omega
      · omega
      · rw [Nat.cast_zero, zero_div] at h
        norm_num at h
  · have hcond : (a.length = 0 || b.length = 0) = false := by
      push_neg at h0
      rw [Bool.or_eq_false_iff]
      exact ⟨decide_eq_false h0.1, decide_eq_false h0.2⟩
    rw [if_neg (by rw [hcond]; simp)]
    have hune : union ≠ 0 := by
      push_neg at h0
      intro hu
      have hnil : jsSetList (a ++ b) = [] := List.length_eq_zero.mp hu
      have hane : a ≠ [] := fun hae => h0.1 (by simp [hae])
      exact jsSetList_ne_nil (by simp [hane]) hnil
    by_cases hov2 : overlap ≥ 2
    · simp [hov2]
    · rw [if_neg hov2]
      by_cases hmin : min a.length b.length ≤ 2 ∧ overlap ≥ 1
      · have hbmin : (decide (min a.length b.length ≤ 2) && decide (overlap ≥ 1)) = true := by
          simp [hmin.1, hmin.2]
        simp [hbmin, hmin]
      · have hcond2 : (decide (min a.length b.length ≤ 2) && decide (overlap ≥ 1)) = false := by
          rw [Bool.and_eq_false_iff]
          rcases Decidable.not_and_iff_or_not.mp hmin with h | h
          · exact Or.inl (decide_eq_false h)
          · exact Or.inr (decide_eq_false h)
        rw [if_neg (by rw [hcond2]; simp)]
        rw [if_neg hune]
        simp only [decide_eq_true_eq]
        constructor
        · intro h
          exact Or.inr (Or.inr ⟨Nat.pos_of_ne_zero hune, h⟩)
        · rintro (h | h | ⟨_, h⟩)
          · exact absurd h hov2
          · exact absurd h hmin
          · exact h

theorem mergeIntoDateList_no_match (vt : String → List String) (gs : List ShowGroup)
    (g : ShowGroup) (h : ∀ x ∈ gs, venueLooksSame vt x.title g.title = false) :
    mergeIntoDateList vt gs g = gs ++ [g] := by
  induction gs with
  | nil => simp [mergeIntoDateList]
  | cons x xs ih =>
    have hx := h x (by simp)
    simp only [mergeIntoDateList, hx]
    simp [ih (fun y hy => h y (by simp [hy]))]

theorem mergeIntoDateList_first_match (vt : String → List String)
    (pre : List ShowGroup) (x : ShowGroup) (suf : List ShowGroup) (g : ShowGroup)
    (hpre : ∀ y ∈ pre, venueLooksSame vt y.title g.title = false)
    (hx : venueLooksSame vt x.title g.title = true) :
    mergeIntoDateList vt (pre ++ x :: suf) g = pre ++ mergeGroupInto x g :: suf := by
  induction pre with
  | nil => simp [mergeIntoDateList, hx]
  | cons p ps ih =>
    have hp := hpre p (by simp)
    simp only [List.cons_append, mergeIntoDateList, hp]
    simp [ih (fun y hy => hpre y (by simp [hy]))]

/-- C5: (1) two same-date groups merge exactly when their display
titles' venue token sets have overlap ≥ 2, or the smaller set has ≤ 2
tokens and overlap ≥ 1, or Jaccard similarity ≥ 0.45; (2) when no
existing group on the date matches, the new group is appended; (3) a new
group merges into the FIRST existing group on that date satisfying the
test, leaving all others unchanged. -/
theorem claim_C5 :
    (∀ aT bT : List String,
      venueLooksSameOn aT bT = true ↔
        (let a := jsSetList aT
         let b := jsSetList bT
         let overlap := (a.filter (fun t => b.contains t)).length
         let union := (jsSetList (a ++ b)).length
         overlap ≥ 2 ∨ (min a.length b.length ≤ 2 ∧ overlap ≥ 1) ∨
          (0 < union ∧ (45 : ℚ) / 100 ≤ (overlap : ℚ) / (union : ℚ)))) ∧
    (∀ (vt : String → List String) (gs : List ShowGroup) (g : ShowGroup),
      (∀ x ∈ gs, venueLooksSame vt x.title g.title = false) →
        mergeIntoDateList vt gs g = gs ++ [g]) ∧
    (∀ (vt : String → List String) (pre : List ShowGroup) (x : ShowGroup)
        (suf : List ShowGroup) (g : ShowGroup),
      (∀ y ∈ pre, venueLooksSame vt y.title g.title = false) →
      venueLooksSame vt x.title g.title = true →
        mergeIntoDateList vt (pre ++ x :: suf) g = pre ++ mergeGroupInto x g :: suf) :=
  ⟨venueLooksSameOn_iff, mergeIntoDateList_no_match, mergeIntoDateList_first_match⟩

/-- C5 witness: a token set with one shared token against a two-token
set passes the test (smaller side ≤ 2, overlap 1); a group whose title
shares no venue token is appended; a group with a matching title merges
into the first matching group, skipping a non-matching one. -/
theorem claim_C5_witness :
    venueLooksSameOn ["tivoli"] ["tivoli", "theatre"] = true ∧
    mergeIntoDateList (fun t => [t])
      [⟨"2023-04-01|bb", "2023-04-01", "bb", [], "Unknown"⟩]
      ⟨"2023-04-01|qq", "2023-04-01", "qq", [], "Unknown"⟩ =
      [⟨"2023-04-01|bb", "2023-04-01", "bb", [], "Unknown"⟩,
       ⟨"2023-04-01|qq", "2023-04-01", "qq", [], "Unknown"⟩] ∧
    mergeIntoDateList (fun t => [t])
      [⟨"2023-04-01|bb", "2023-04-01", "bb", [], "Unknown"⟩,
       ⟨"2023-04-01|t", "2023-04-01", "tivoli", [], "Unknown"⟩]
      ⟨"2023-04-01|t2", "2023-04-01", "tivoli", [], "Unknown"⟩ =
      [⟨"2023-04-01|bb", "2023-04-01", "bb", [], "Unknown"⟩,
       mergeGroupInto ⟨"2023-04-01|t", "2023-04-01", "tivoli", [], "Unknown"⟩
         ⟨"2023-04-01|t2", "2023-04-01", "tivoli", [], "Unknown"⟩] := by
  have hbq : venueLooksSame (fun t => [t]) "bb" "qq" = false := by
    norm_num [venueLooksSame, venueLooksSameOn, jsSetList, jsSetListAux,
      List.filter_cons, List.filter_nil, show ("bb" : String) ≠ "qq" by decide]
  have hbt : venueLooksSame (fun t => [t]) "bb" "tivoli" = false := by
    norm_num [venueLooksSame, venueLooksSameOn, jsSetList, jsSetListAux,
      List.filter_cons, List.filter_nil, show ("bb" : String) ≠ "tivoli" by decide]
  refine ⟨(claim_C5.1 ["tivoli"] ["tivoli", "theatre"]).mpr
      (Or.inr (Or.inl ⟨by decide, by decide⟩)),
    claim_C5.2.1 _ _ _ ?_,
    claim_C5.2.2 _ [⟨"2023-04-01|bb", "2023-04-01", "bb", [], "Unknown"⟩]
      ⟨"2023-04-01|t", "2023-04-01", "tivoli", [], "Unknown"⟩ []
      ⟨"2023-04-01|t2", "2023-04-01", "tivoli", [], "Unknown"⟩ ?_ (by decide)⟩
  · intro x hx
    simp only [List.mem_singleton] at hx
    subst hx
    exact hbq
  · intro y hy
    simp only [List.mem_singleton] at hy
    subst hy
    exact hbt

/-! ## Claim C8 — special-event tag attachment -/

theorem find?_first_of_prefix_false {p : α → Bool} (pre : List α) (e : α) (suf : List α)
    (hpre : ∀ x ∈ pre, p x = false) (he : p e = true) :
    (pre ++ e :: suf).find? p = some e := by
  induction pre with
  | nil => simp [List.find?_cons_of_pos, he]
  | cons a as ih =>
    rw [List.cons_append, List.find?_cons_of_neg _ (by simp [hpre a (by simp)])]
    exact ih (fun x hx => hpre x (by simp [hx]))

/-- C8 (amended): tagging maps each show independently; with no entry
for the show's date the show is unchanged; with exactly one entry the
show is tagged unconditionally; with two or more entries the show is
unchanged when no entry's candidate set matches its venue slug under
`venueSlugMatches`, and otherwise receives the tag of the FIRST matching
entry.  `venueSlugMatches` is similar to, but not the same as, the
fuzzy-merge heuristic: it first accepts exact equality or substring
containment in either direction against any candidate, then applies the
token-overlap part (overlap ≥ 2, or smaller set ≤ 2 and overlap ≥ 1)
over hyphen-split token sets — with no Jaccard clause. -/
theorem claim_C8_amended (byDate : List (String × List KglwTagEntry)) (s : ShowListItem) :
    (∀ shows, applySpecialTagsToShows shows byDate = shows.map (tagOneShow byDate)) ∧
    (((byDate.lookup s.showDate).getD []) = [] → tagOneShow byDate s = s) ∧
    (∀ e, ((byDate.lookup s.showDate).getD []) = [e] →
      tagOneShow byDate s = { s with specialTag := some e.tag }) ∧
    (∀ entries, ((byDate.lookup s.showDate).getD []) = entries → 2 ≤ entries.length →
      (((∀ e ∈ entries, venueSlugMatches
            (lowerStr ((strSplitOnChar s.showKey '|').getD 1 "")) e.venueCandidates = false) →
        tagOneShow byDate s = s) ∧
       (∀ pre e suf, entries = pre ++ e :: suf →
          (∀ x ∈ pre, venueSlugMatches
            (lowerStr ((strSplitOnChar s.showKey '|').getD 1 "")) x.venueCandidates = false) →
          venueSlugMatches
            (lowerStr ((strSplitOnChar s.showKey '|').getD 1 "")) e.venueCandidates = true →
          tagOneShow byDate s = { s with specialTag := some e.tag }))) := by
  set slug := lowerStr ((strSplitOnChar s.showKey '|').getD 1 "") with hslug
  refine ⟨fun shows => rfl, ?_, ?_, ?_⟩
  · intro h
    simp [tagOneShow, h]
  · intro e h
    simp [tagOneShow, h]
  · intro entries h hlen
    constructor
    · intro hall
      rcases entries with _ | ⟨e1, _ | ⟨e2, rest⟩⟩
      · simp at hlen
      · simp at hlen
      · have hnone : (e1 :: e2 :: rest).find?
            (fun e => venueSlugMatches slug e.venueCandidates) = none :=
          List.find?_eq_none.mpr (fun x hx => by rw [hall x hx]; simp)
        simp only [tagOneShow, h, ← hslug, hnone]
    · rintro pre e suf rfl hpre he
      have hfind := find?_first_of_prefix_false pre e suf hpre he
      rcases pre with _ | ⟨p1, pre⟩
      · rcases suf with _ | ⟨s1, suf⟩
        · simp at hlen
        · simp only [List.nil_append] at h hfind ⊢
          simp only [tagOneShow, h, ← hslug, hfind]
      · rcases hap : pre ++ e :: suf with _ | ⟨a1, arest⟩
        · exact absurd hap (by simp)
        · simp only [List.cons_append, hap] at h hfind ⊢
          simp only [tagOneShow, h, ← hslug, hfind]

/-- C8 counterexample to the claim as stated: on a date with two
external entries, a show with venue slug `"abc"` receives the first
entry's tag because `"xabcy"` contains `"abc"` as a substring, although
the fuzzy-merge token-overlap heuristic (`specSlugFuzzyMatch`) matches
neither entry's candidate set — so "receives a tag only if the venue
slug fuzzy-matches under the same heuristic as the merge pass" is
false. -/
theorem claim_C8_counterexample :
    (applySpecialTagsToShows
      [{ showKey := "2023-01-01|abc", showDate := "2023-01-01", title := "abc",
         defaultId := "d", sourcesCount := 1, continent := "Unknown", plays := 0 }]
      [("2023-01-01", [⟨SpecialTag.ORCHESTRA, ["xabcy"]⟩,
        ⟨SpecialTag.RAVE, ["zzz"]⟩])]).map (fun s => s.specialTag) =
      [some SpecialTag.ORCHESTRA] ∧
    specSlugFuzzyMatch "abc" ["xabcy"] = false ∧
    specSlugFuzzyMatch "abc" ["zzz"] = false := by
  have h1 : slugTokenSet "abc" = ["abc"] := by decide
  have h2 : slugTokenSet "xabcy" = ["xabcy"] := by decide
  have h3 : slugTokenSet "zzz" = ["zzz"] := by decide
  have hA : venueLooksSameOn ["abc"] ["xabcy"] = false := by
    norm_num [venueLooksSameOn, jsSetList, jsSetListAux, List.filter_cons,
      List.filter_nil, show ("abc" : String) ≠ "xabcy" by decide,
      show ("xabcy" : String) ≠ "abc" by decide]
  have hB : venueLooksSameOn ["abc"] ["zzz"] = false := by
    norm_num [venueLooksSameOn, jsSetList, jsSetListAux, List.filter_cons,
      List.filter_nil, show ("abc" : String) ≠ "zzz" by decide,
      show ("zzz" : String) ≠ "abc" by decide]
  refine ⟨by decide, ?_, ?_⟩
  · simp [specSlugFuzzyMatch, h1, h2, hA]
  · simp [specSlugFuzzyMatch, h1, h3, hB]

/-- C8 witness: the amended theorem applied to a show with venue slug
`"tivoli"`: a date with no entries leaves it untagged, a single-entry
date tags it unconditionally, and on a two-entry date it skips the
non-matching first entry and takes the tag of the first matching one. -/
theorem claim_C8_witness :
    tagOneShow [("2023-01-02", [⟨SpecialTag.RAVE, ["zzz"]⟩])]
      { showKey := "2023-01-01|tivoli", showDate := "2023-01-01", title := "t",
        defaultId := "d", sourcesCount := 1, continent := "Unknown", plays := 0 } =
      { showKey := "2023-01-01|tivoli", showDate := "2023-01-01", title := "t",
        defaultId := "d", sourcesCount := 1, continent := "Unknown", plays := 0 } ∧
    tagOneShow [("2023-01-01", [⟨SpecialTag.ORCHESTRA, ["anywhere-at-all"]⟩])]
      { showKey := "2023-01-01|tivoli", showDate := "2023-01-01", title := "t",
        defaultId := "d", sourcesCount := 1, continent := "Unknown", plays := 0 } =
      { showKey := "2023-01-01|tivoli", showDate := "2023-01-01", title := "t",
        defaultId := "d", sourcesCount := 1, continent := "Unknown", plays := 0,
        specialTag := some SpecialTag.ORCHESTRA } ∧
    tagOneShow [("2023-01-01", [⟨SpecialTag.RAVE, ["zzz"]⟩,
        ⟨SpecialTag.ACOUSTIC, ["the-tivoli-brisbane"]⟩])]
      { showKey := "2023-01-01|tivoli", showDate := "2023-01-01", title := "t",
        defaultId := "d", sourcesCount := 1, continent := "Unknown", plays := 0 } =
      { showKey := "2023-01-01|tivoli", showDate := "2023-01-01", title := "t",
        defaultId := "d", sourcesCount := 1, continent := "Unknown", plays := 0,
        specialTag := some SpecialTag.ACOUSTIC } := by
  refine ⟨(claim_C8_amended _ _).2.1 (by decide),
    (claim_C8_amended _ _).2.2.1 ⟨SpecialTag.ORCHESTRA, ["anywhere-at-all"]⟩ (by decide),
    (claim_C8_amended _ _).2.2.2 [⟨SpecialTag.RAVE, ["zzz"]⟩,
        ⟨SpecialTag.ACOUSTIC, ["the-tivoli-brisbane"]⟩] (by decide) (by decide)
      |>.2 [⟨SpecialTag.RAVE, ["zzz"]⟩] ⟨SpecialTag.ACOUSTIC, ["the-tivoli-brisbane"]⟩ []
        (by decide) ?_ (by decide)⟩
  intro x hx
  simp only [List.mem_singleton] at hx
  subst hx
  decide

/-! ## Claim C3 — failure handling of the primary pagination loop -/

theorem collectIaDocsAux_error_of_reached (f : ℕ → PageOutcome) :
    ∀ (fuel start : ℕ) (docs : List IaDoc) (j : ℕ), start ≤ j → j < start + fuel →
      (∀ i, start ≤ i → i < j → ∃ b, f i = .ok b ∧ b ≠ []) →
      f j = .fail → collectIaDocsAux f fuel start docs = .error j := by
  intro fuel
  induction fuel with
  | zero => intro start docs j h1 h2 _ _; omega
  | succ fuel ih =>
    intro start docs j h1 h2 hprev hj
    by_cases hs : start = j
    · subst hs
      simp [collectIaDocsAux, hj]
    · obtain ⟨b, hb, hbne⟩ := hprev start (le_refl _) (by omega)
      rcases b with _ | ⟨x, xs⟩
      · exact absurd rfl hbne
      · simp only [collectIaDocsAux, hb]
        exact ih (start + 1) (docs ++ x :: xs) j (by omega) (by omega)
          (fun i hi1 hi2 => hprev i (by omega) hi2) hj

theorem collectIaDocsAux_ok_of_empty (f : ℕ → PageOutcome) :
    ∀ (fuel start : ℕ) (docs : List IaDoc) (j : ℕ), start ≤ j →
      (∀ i, start ≤ i → i < j → ∃ b, f i = .ok b ∧ b ≠ []) →
      f j = .ok [] → (collectIaDocsAux f fuel start docs).isOk = true := by
  intro fuel
  induction fuel with
  | zero => intro start docs j _ _ _; simp [collectIaDocsAux, Except.isOk, Except.toBool]
  | succ fuel ih =>
    intro start docs j h1 hprev hj
    by_cases hs : start = j
    · subst hs
      simp [collectIaDocsAux, hj, Except.isOk, Except.toBool]
    · obtain ⟨b, hb, hbne⟩ := hprev start (le_refl _) (by omega)
      rcases b with _ | ⟨x, xs⟩
      · exact absurd rfl hbne
      · simp only [collectIaDocsAux, hb]
        exact ih (start + 1) (docs ++ x :: xs) j (by omega)
          (fun i hi1 hi2 => hprev i (by omega) hi2) hj

/-- C3 (amended): in the primary show-list pagination loop a transport
failure of ANY reachable page — the first or a later one — aborts the
request with the 502 error for that page; it is only an EMPTY page that
stops pagination early with the request proceeding on the documents
already accumulated. -/
theorem claim_C3_amended (f : ℕ → PageOutcome) (maxPages j : ℕ)
    (h1 : 1 ≤ j) (h2 : j ≤ maxPages)
    (hprev : ∀ i, 1 ≤ i → i < j → ∃ b, f i = .ok b ∧ b ≠ []) :
    (f j = .fail → collectIaDocs f maxPages = .error j) ∧
    (f j = .ok [] → (collectIaDocs f maxPages).isOk = true) :=
  ⟨fun hj => collectIaDocsAux_error_of_reached f maxPages 1 [] j h1 (by omega) hprev hj,
   fun hj => collectIaDocsAux_ok_of_empty f maxPages 1 [] j h1 hprev hj⟩

/-- C3 counterexample to the claim as stated: page 1 succeeds with one
document and page 2 fails; the loop returns the 502 error for page 2
instead of proceeding with the accumulated documents. -/
theorem claim_C3_counterexample :
    collectIaDocs
      (fun i => if i = 1 then PageOutcome.ok [{ identifier := "a" }] else .fail) 3 =
      .error 2 ∧
    (Except.error 2 : Except ℕ (List IaDoc)) ≠ .ok [{ identifier := "a" }] := by
  exact ⟨rfl, fun h => Except.noConfusion h⟩

/-- C3 witness: the amended theorem at `maxPages = 3`: a failure on
page 1 errors with page 1, a failure on page 2 after a non-empty page 1
errors with page 2, and an empty page 2 after a non-empty page 1 leaves
the loop successful. -/
theorem claim_C3_witness :
    collectIaDocs (fun _ => PageOutcome.fail) 3 = .error 1 ∧
    collectIaDocs
      (fun i => if i = 1 then PageOutcome.ok [{ identifier := "a" }] else .fail) 3 =
      .error 2 ∧
    (collectIaDocs
      (fun i => if i = 1 then PageOutcome.ok [{ identifier := "a" }]
        else .ok []) 3).isOk = true := by
  refine ⟨(claim_C3_amended _ 3 1 (by omega) (by omega) (by omega)).1 rfl,
    (claim_C3_amended _ 3 2 (by omega) (by omega) ?_).1 rfl,
    (claim_C3_amended _ 3 2 (by omega) (by omega) ?_).2 rfl⟩
  · intro i hi1 hi2
    have : i = 1 := by omega
    subst this
    exact ⟨[{ identifier := "a" }], rfl, by simp⟩
  · intro i hi1 hi2
    have : i = 1 := by omega
    subst this
    exact ⟨[{ identifier := "a" }], rfl, by simp⟩

/-! ## Claim C4 — cache-write disciplines of the four TTL caches -/

/-- C4 (amended): (a) the per-identifier metadata cache and (b) the
per-identifier playback-stats cache are never written when the
underlying fetch failed; (c) the list-response cache is written exactly
when the primary pagination loop succeeded; but (d) for the
special-event-tag cache only a THROWN fetch error prevents the write —
`fetchKglwShowsForTitle` swallows a non-2xx response into an empty row
list, and the resulting (possibly empty) map is cached for the full TTL
(see the counterexample). -/
theorem claim_C4_amended :
    (∀ (α : Type) (id : String) (cache : List (String × (ℚ × α))) (now : ℚ),
      (showMetadataGet id cache now none).2 = cache) ∧
    (∀ (cache : List (String × PlaybackStats)) (identifier : String),
      (fetchShowPlaybackStats cache identifier none none).2 = cache) ∧
    (∀ (f : ℕ → PageOutcome) (maxPages : ℕ),
      (showsGetCacheModel f maxPages).cacheWritten = (collectIaDocs f maxPages).isOk) ∧
    (∀ state (now : ℚ) fo fr fa, (fo = .threw ∨ fr = .threw ∨ fa = .threw) →
      (getKglwSpecialTagsByDate state now fo fr fa).2 = state) := by
  refine ⟨?_, ?_, ?_, ?_⟩
  · intro α id cache now
    unfold showMetadataGet
    by_cases h0 : trimStr id = ""
    · simp [h0]
    · simp only [if_neg h0]
      match cache.lookup (trimStr id) with
      | none => rfl
      | some (e, p) =>
        by_cases hn : now < e
        · simp [hn]
        · simp [hn]
  · intro cache identifier
    unfold fetchShowPlaybackStats
    match cache.lookup identifier with
    | none => rfl
    | some v => rfl
  · intro f maxPages
    unfold showsGetCacheModel
    match collectIaDocs f maxPages with
    | .error i => simp [Except.isOk, Except.toBool]
    | .ok docs => simp [Except.isOk, Except.toBool]
  · intro state now fo fr fa hthrew
    unfold getKglwSpecialTagsByDate
    rcases state with _ | ⟨e, byDate⟩
    · rcases hfo : kglwRowsOf fo with _ | ro <;>
        rcases hfr : kglwRowsOf fr with _ | rr <;>
          rcases hfa : kglwRowsOf fa with _ | ra <;>
            first
              | rfl
              | (exfalso
                 rcases hthrew with h | h | h <;> subst h <;>
                   simp [kglwRowsOf] at hfo hfr hfa)
    · by_cases he : e > now
      · simp [he]
      · simp only [if_neg he]
        rcases hfo : kglwRowsOf fo with _ | ro <;>
          rcases hfr : kglwRowsOf fr with _ | rr <;>
            rcases hfa : kglwRowsOf fa with _ | ra <;>
              first
                | rfl
                | (exfalso
                   rcases hthrew with h | h | h <;> subst h <;>
                     simp [kglwRowsOf] at hfo hfr hfa)

/-- C4 counterexample to the claim as stated: starting from an empty
tag cache, all three tag fetches fail with non-2xx responses, yet
`getKglwSpecialTagsByDate` stores a cache entry (an empty map with a
full 12-hour TTL) — a failed upstream fetch caused an entry to be
stored. -/
theorem claim_C4_counterexample :
    getKglwSpecialTagsByDate none 0 .httpFail .httpFail .httpFail =
      ([], some (0 + KGLW_TAG_CACHE_TTL_MS, [])) := rfl

/-- C4 witness: the amended theorem at concrete inputs — a failed
metadata fetch for id `"x"` leaves an empty metadata cache empty, a
twice-failed stats fetch leaves an empty stats cache empty, a failed
first page leaves the list-response cache unwritten, and a thrown tag
fetch leaves the tag cache state unchanged. -/
theorem claim_C4_witness :
    (showMetadataGet "x" ([] : List (String × (ℚ × ℕ))) 0 none).2 = [] ∧
    (fetchShowPlaybackStats [] "x" none none).2 = [] ∧
    (showsGetCacheModel (fun _ => PageOutcome.fail) 3).cacheWritten =
      (collectIaDocs (fun _ => PageOutcome.fail) 3).isOk ∧
    (getKglwSpecialTagsByDate none 0 .threw .httpFail .httpFail).2 = none :=
  ⟨claim_C4_amended.1 ℕ "x" [] 0, claim_C4_amended.2.1 [] "x",
   claim_C4_amended.2.2.1 _ 3, claim_C4_amended.2.2.2 none 0 _ _ _ (Or.inl rfl)⟩

/-! ## Claim C6 — documents without an extractable date are dropped -/

/-- C6: a Document whose date field, identifier and title contain no
recognizable date pattern (`extractShowDate` yields `none`) yields no
Recording, contributes nothing to `buildRecordingsFromDocs`, and hence
appears in no Show of the pipeline output; all functions involved are
total, so this is a silent drop, not an error. -/
theorem claim_C6 (d : IaDoc) (h : extractShowDate d = none) :
    (∀ (log10 : ℚ → ℚ) (vslug : Option String → String) (cf : List String),
      docToRecording log10 vslug cf d = none) ∧
    (∀ (log10 : ℚ → ℚ) (vslug : Option String → String) (cf : List String)
        (pre post : List IaDoc),
      buildRecordingsFromDocs log10 vslug (pre ++ d :: post) cf =
        buildRecordingsFromDocs log10 vslug (pre ++ post) cf) ∧
    (∀ (log10 : ℚ → ℚ) (vt : String → List String) (vslug : Option String → String)
        (cf : List String) (pre post : List IaDoc),
      buildShowsFromRecordings vt
          (buildRecordingsFromDocs log10 vslug (pre ++ d :: post) cf) =
        buildShowsFromRecordings vt
          (buildRecordingsFromDocs log10 vslug (pre ++ post) cf)) := by
  have hdrop : ∀ (log10 : ℚ → ℚ) (vslug : Option String → String) (cf : List String),
      docToRecording log10 vslug cf d = none := by
    intro log10 vslug cf
    simp [docToRecording, h]
  have hlist : ∀ (log10 : ℚ → ℚ) (vslug : Option String → String) (cf : List String)
      (pre post : List IaDoc),
      buildRecordingsFromDocs log10 vslug (pre ++ d :: post) cf =
        buildRecordingsFromDocs log10 vslug (pre ++ post) cf := by
    intro log10 vslug cf pre post
    simp [buildRecordingsFromDocs, List.filterMap_append, List.filterMap_cons,
      hdrop log10 vslug cf]
  exact ⟨hdrop, hlist, fun log10 vt vslug cf pre post => by rw [hlist]⟩

/-- C6 witness: a concrete document with no date pattern anywhere
(`date` `"not a date"`, identifier `"foo"`, title `"hello"`) is dropped:
prepending it to an empty document list changes nothing about the built
shows. -/
theorem claim_C6_witness :
    extractShowDate { identifier := "foo"
                      title := some "hello"
                      date := some "not a date" } = none ∧
    buildShowsFromRecordings (fun t => [t])
        (buildRecordingsFromDocs (fun _ => 0) (fun _ => "v")
          [{ identifier := "foo"
             title := some "hello"
             date := some "not a date" }] []) =
      buildShowsFromRecordings (fun t => [t])
        (buildRecordingsFromDocs (fun _ => 0) (fun _ => "v") [] []) :=
  ⟨by decide,
   (claim_C6 _ (by decide)).2.2 (fun _ => 0) (fun t => [t]) (fun _ => "v") [] [] []⟩

/-! ## Claim C10 — pagination -/

theorem parsePageParam_ge_one {p : Option String} {q : ℚ}
    (h : parsePageParam p = some q) : 1 ≤ q := by
  unfold parsePageParam jsMax1 at h
  rcases Option.map_eq_some'.mp h with ⟨x, hx, hfx⟩
  rw [← hfx]
  exact le_max_left 1 x

theorem jsSlice_none_none (l : List α) : jsSlice l none none = [] := by
  simp [jsSlice, toIntegerOrZero, sliceBound]

theorem sliceBound_nonneg_eq (L a : ℤ) (ha : 0 ≤ a) : sliceBound L a = min a L := by
  simp [sliceBound, not_lt.mpr ha]

theorem floor_start_add (q : ℚ) : ⌊(q - 1) * 25 + 25⌋ = ⌊(q - 1) * 25⌋ + 25 := by
  have h := Int.floor_add_int ((q - 1) * 25) 25
  push_cast at h
  exact_mod_cast h

theorem paginate_some_shape (shows : List ShowListItem) (pageParam : Option String)
    (q : ℚ) (hp : parsePageParam pageParam = some q) :
    (paginate shows pageParam).items =
      (shows.drop (min ⌊(q - 1) * 25⌋ (shows.length : ℤ)).toNat).take
        (min (⌊(q - 1) * 25⌋ + 25) (shows.length : ℤ) -
          min ⌊(q - 1) * 25⌋ (shows.length : ℤ)).toNat ∧
    ((paginate shows pageParam).hasMore = true ↔ q * 25 < (shows.length : ℚ)) := by
  have hq : 1 ≤ q := parsePageParam_ge_one hp
  have hst : (0 : ℚ) ≤ (q - 1) * 25 := by nlinarith
  have hfl : (0 : ℤ) ≤ ⌊(q - 1) * 25⌋ := Int.floor_nonneg.mpr hst
  constructor
  · unfold paginate
    rw [hp]
    simp only [Option.map_some', jsSlice, toIntegerOrZero]
    rw [if_neg (not_lt.mpr hst), if_neg (not_lt.mpr (by linarith)), floor_start_add,
      sliceBound_nonneg_eq _ _ hfl, sliceBound_nonneg_eq _ _ (by omega)]
  · unfold paginate
    rw [hp]
    simp only [Option.map_some', decide_eq_true_eq]
    have hrw : (q - 1) * 25 + 25 = q * 25 := by ring
    rw [hrw]

theorem paginate_items_len_le (shows : List ShowListItem) (pageParam : Option String) :
    (paginate shows pageParam).items.length ≤ 25 := by
  rcases hp : parsePageParam pageParam with _ | q
  · unfold paginate
    rw [hp]
    simp [jsSlice_none_none]
  · rw [(paginate_some_shape shows pageParam q hp).1]
    have hfl : (0 : ℤ) ≤ ⌊(q - 1) * 25⌋ :=
      Int.floor_nonneg.mpr (by nlinarith [parsePageParam_ge_one hp])
    refine le_trans (List.length_take_le _ _) ?_
    rcases le_total ⌊(q - 1) * 25⌋ (shows.length : ℤ) with h | h <;>
      rcases le_total (⌊(q - 1) * 25⌋ + 25) (shows.length : ℤ) with h2 | h2
    · rw [min_eq_left h, min_eq_left h2]; omega
    · rw [min_eq_left h, min_eq_right h2]; omega
    · rw [min_eq_right h, min_eq_left h2]; omega
    · rw [min_eq_right h, min_eq_right h2]; omega

theorem paginate_past_end (shows : List ShowListItem) (pageParam : Option String)
    (q : ℚ) (hp : parsePageParam pageParam = some q)
    (hpast : (shows.length : ℚ) ≤ (q - 1) * 25) :
    (paginate shows pageParam).items = [] ∧ (paginate shows pageParam).hasMore = false := by
  have hq : 1 ≤ q := parsePageParam_ge_one hp
  have hfle : (shows.length : ℤ) ≤ ⌊(q - 1) * 25⌋ := Int.le_floor.mpr (by exact_mod_cast hpast)
  constructor
  · rw [(paginate_some_shape shows pageParam q hp).1]
    rw [min_eq_right hfle, min_eq_right (by omega)]
    simp
  · rcases hb : (paginate shows pageParam).hasMore with _ | _
    · rfl
    · exfalso
      have := ((paginate_some_shape shows pageParam q hp).2).mp hb
      nlinarith

theorem paginate_nan (shows : List ShowListItem) (pageParam : Option String)
    (hp : parsePageParam pageParam = none) :
    (paginate shows pageParam).items = [] ∧ (paginate shows pageParam).hasMore = false := by
  unfold paginate
  rw [hp]
  simp [jsSlice_none_none]

theorem parsePageParam_missing : parsePageParam none = some 1 := by
  have h1 : jsNumber? "1" = some ((1 : ℕ) : ℚ) := rfl
  simp [parsePageParam, jsMax1, h1]

theorem parsePageParam_clamp (s : String) (q : ℚ) (hs : s ≠ "")
    (hn : jsNumber? s = some q) (hlt : q < 1) : parsePageParam (some s) = some 1 := by
  simp [parsePageParam, hs, jsMax1, hn, max_eq_left hlt.le]

/-- C10 (amended): every page holds at most 25 shows, `venueTotal` is
the filtered total, `hasMore` is true exactly when `page*25` is below
the total, a page past the end yields an empty `items` with `hasMore`
false, and a missing page parameter or a numeric one below 1 is treated
as page 1 — but a non-numeric parameter is NOT treated as page 1:
`Number(...)` yields `NaN`, `Math.max(1, NaN)` stays `NaN`, and the
slice collapses to an empty page with `hasMore` false (see the
counterexample). -/
theorem claim_C10_amended (shows : List ShowListItem) (pageParam : Option String) :
    (paginate shows pageParam).items.length ≤ 25 ∧
    (paginate shows pageParam).venueTotal = shows.length ∧
    (pageParam = none → parsePageParam pageParam = some 1) ∧
    (∀ s q, pageParam = some s → s ≠ "" → jsNumber? s = some q → q < 1 →
      parsePageParam pageParam = some 1) ∧
    (∀ q, parsePageParam pageParam = some q →
      1 ≤ q ∧
      ((paginate shows pageParam).hasMore = true ↔ q * 25 < (shows.length : ℚ)) ∧
      ((shows.length : ℚ) ≤ (q - 1) * 25 →
        (paginate shows pageParam).items = [] ∧
        (paginate shows pageParam).hasMore = false)) ∧
    (parsePageParam pageParam = none →
      (paginate shows pageParam).items = [] ∧
      (paginate shows pageParam).hasMore = false) := by
  refine ⟨paginate_items_len_le shows pageParam, rfl, ?_, ?_, ?_, paginate_nan shows pageParam⟩
  · rintro rfl
    exact parsePageParam_missing
  · rintro s q rfl hs hn hlt
    exact parsePageParam_clamp s q hs hn hlt
  · intro q hp
    exact ⟨parsePageParam_ge_one hp, (paginate_some_shape shows pageParam q hp).2,
      paginate_past_end shows pageParam q hp⟩

/-- C10 counterexample to the claim as stated: with one show in the
list, the non-numeric page parameter `"x"` does not behave as page 1 —
it yields an empty `items` array (page 1 would return the show) with
`hasMore` false. -/
theorem claim_C10_counterexample :
    (paginate [⟨"k", "2023-01-01", "t", "d", 1, "Unknown", 0, none⟩]
      (some "x")).items = [] ∧
    (paginate [⟨"k", "2023-01-01", "t", "d", 1, "Unknown", 0, none⟩]
      (some "x")).hasMore = false ∧
    (paginate [⟨"k", "2023-01-01", "t", "d", 1, "Unknown", 0, none⟩] none).items =
      [⟨"k", "2023-01-01", "t", "d", 1, "Unknown", 0, none⟩] := by
  have hpx : parsePageParam (some "x") = none := rfl
  refine ⟨(paginate_nan _ _ hpx).1, (paginate_nan _ _ hpx).2, ?_⟩
  rw [(paginate_some_shape _ _ 1 parsePageParam_missing).1]
  norm_num

/-- C10 witness: the amended theorem at a one-show list — the page-size
bound, page 1 for a missing parameter, page 1 for the numeric parameter
`"0"`, `hasMore` false on page 1 of one show, and the empty page past
the end (page 2). -/
theorem claim_C10_witness :
    (paginate [⟨"k", "2023-01-01", "t", "d", 1, "Unknown", 0, none⟩]
      none).items.length ≤ 25 ∧
    parsePageParam none = some 1 ∧
    parsePageParam (some "0") = some 1 ∧
    ((paginate ([] : List ShowListItem) none).items = [] ∧
      (paginate ([] : List ShowListItem) none).hasMore = false) := by
  have h0 : jsNumber? "0" = some ((0 : ℕ) : ℚ) := rfl
  have hp1 : parsePageParam none = some 1 := (claim_C10_amended [] none).2.2.1 rfl
  refine ⟨(claim_C10_amended _ none).1, hp1,
    (claim_C10_amended [] (some "0")).2.2.2.1 "0" ((0 : ℕ) : ℚ) rfl (by decide) h0
      (by norm_num),
    ((claim_C10_amended [] none).2.2.2.2.1 1 hp1).2.2 (by norm_num)⟩

/-! ## Claim C7 — Show invariants after the merge pipeline -/

theorem addRecording_sources_ne_nil {gs : List ShowGroup} {r : Recording}
    (h : ∀ g ∈ gs, g.sources ≠ []) : ∀ g ∈ addRecording gs r, g.sources ≠ [] := by
  induction gs with
  | nil =>
    intro g hg
    simp only [addRecording, List.mem_singleton] at hg
    subst hg
    simp [newGroup]
  | cons x xs ih =>
    intro g hg
    by_cases hk : x.showKey = r.showKey
    · simp only [addRecording, if_pos hk] at hg
      rcases List.mem_cons.mp hg with rfl | hg'
      · simp [groupAbsorb]
      · exact h g (by simp [hg'])
    · simp only [addRecording, if_neg hk] at hg
      rcases List.mem_cons.mp hg with rfl | hg'
      · exact h g (by simp)
      · exact ih (fun u hu => h u (by simp [hu])) g hg'

theorem groupRecordings_sources_ne_nil (rs : List Recording) :
    ∀ g ∈ groupRecordings rs, g.sources ≠ [] := by
  have main : ∀ (rs : List Recording) (acc : List ShowGroup),
      (∀ g ∈ acc, g.sources ≠ []) → ∀ g ∈ rs.foldl addRecording acc, g.sources ≠ [] := by
    intro rs
    induction rs with
    | nil => intro acc h; simpa using h
    | cons r rest ih =>
      intro acc h
      exact ih (addRecording acc r) (addRecording_sources_ne_nil h)
  exact main rs [] (by simp)

theorem mergeIntoDateList_sources_ne_nil (vt : String → List String)
    {gs : List ShowGroup} {g : ShowGroup}
    (hgs : ∀ x ∈ gs, x.sources ≠ []) (hg : g.sources ≠ []) :
    ∀ x ∈ mergeIntoDateList vt gs g, x.sources ≠ [] := by
  induction gs with
  | nil =>
    intro x hx
    simp only [mergeIntoDateList, List.mem_singleton] at hx
    subst hx
    exact hg
  | cons y ys ih =>
    intro x hx
    by_cases hv : venueLooksSame vt y.title g.title = true
    · simp only [mergeIntoDateList, if_pos hv] at hx
      rcases List.mem_cons.mp hx with rfl | hx'
      · simp only [mergeGroupInto]
        intro hcon
        exact hgs y (by simp) (List.append_eq_nil.mp hcon).1
      · exact hgs x (by simp [hx'])
    · simp only [mergeIntoDateList, if_neg hv] at hx
      rcases List.mem_cons.mp hx with rfl | hx'
      · exact hgs x (by simp)
      · exact ih (fun u hu => hgs u (by simp [hu])) x hx'

theorem mergeStep_sources_ne_nil (vt : String → List String)
    {acc : List (String × List ShowGroup)} {g : ShowGroup}
    (hacc : ∀ p ∈ acc, ∀ x ∈ p.2, x.sources ≠ []) (hg : g.sources ≠ []) :
    ∀ p ∈ mergeStep vt acc g, ∀ x ∈ p.2, x.sources ≠ [] := by
  induction acc with
  | nil =>
    intro p hp
    simp only [mergeStep, List.mem_singleton] at hp
    subst hp
    intro x hx
    simp only [List.mem_singleton] at hx
    subst hx
    exact hg
  | cons q qs ih =>
    rcases q with ⟨d, gs⟩
    intro p hp
    by_cases hd : d = g.showDate
    · simp only [mergeStep, if_pos hd] at hp
      rcases List.mem_cons.mp hp with rfl | hp'
      · exact mergeIntoDateList_sources_ne_nil vt
          (fun x hx => hacc ⟨d, gs⟩ (by simp) x hx) hg
      · exact hacc p (by simp [hp'])
    · simp only [mergeStep, if_neg hd] at hp
      rcases List.mem_cons.mp hp with rfl | hp'
      · exact hacc (d, gs) (by simp)
      · exact ih (fun u hu => hacc u (by simp [hu])) p hp'

theorem mergedGroups_sources_ne_nil (vt : String → List String) (rs : List Recording) :
    ∀ g ∈ mergedGroups vt rs, g.sources ≠ [] := by
  have main : ∀ (gl : List ShowGroup) (acc : List (String × List ShowGroup)),
      (∀ p ∈ acc, ∀ x ∈ p.2, x.sources ≠ []) → (∀ g ∈ gl, g.sources ≠ []) →
      ∀ p ∈ gl.foldl (mergeStep vt) acc, ∀ x ∈ p.2, x.sources ≠ [] := by
    intro gl
    induction gl with
    | nil => intro acc h _; simpa using h
    | cons g grest ih =>
      intro acc hacc hgl
      exact ih (mergeStep vt acc g)
        (mergeStep_sources_ne_nil vt hacc (hgl g (by simp)))
        (fun u hu => hgl u (by simp [hu]))
  intro g hg
  unfold mergedGroups at hg
  rcases List.mem_flatten.mp hg with ⟨l, hl, hgl⟩
  rcases List.mem_map.mp hl with ⟨p, hp, rfl⟩
  exact main (groupRecordings rs) [] (by simp) (groupRecordings_sources_ne_nil rs) p hp g hgl

theorem plays_foldl_eq_sum (l : List Recording) (q : ℚ) :
    l.foldl (fun sum s => sum + s.downloads) q = q + (l.map (fun r => r.downloads)).sum := by
  induction l generalizing q with
  | nil => simp
  | cons x xs ih =>
    simp only [List.foldl_cons, List.map_cons, List.sum_cons, ih]
    ring

theorem sortSourcesDesc_sorted (l : List Recording) :
    (sortSourcesDesc l).Pairwise (fun a b => b.score ≤ a.score) := by
  refine pairwise_jsSortBy (P := fun _ => True) ?_ ?_ ?_ (fun _ _ => trivial)
  · intro a b
    rcases le_total b.score a.score with h | h
    · exact Or.inl (decide_eq_true (sub_nonpos.mpr h))
    · exact Or.inr (decide_eq_true (sub_nonpos.mpr h))
  · intro a b _ _ h
    exact sub_nonpos.mp (of_decide_eq_true h)
  · intro a b c _ _ _ h1 h2
    exact h2.trans h1

/-- C7: every emitted Show arises from a merged group with at least one
Recording; its finalized source list is sorted by score descending, its
`defaultId` is the identifier of the first (maximal-score) source, its
`sourcesCount` is the number of merged Recordings, and its `plays` is
the sum of the member Recordings' download counts. -/
theorem claim_C7 (vt : String → List String) (rs : List Recording) (item : ShowListItem)
    (h : item ∈ buildShowsFromRecordings vt rs) :
    ∃ g ∈ mergedGroups vt rs,
      item = finalizeGroup g ∧ g.sources ≠ [] ∧
      (sortSourcesDesc g.sources).Pairwise (fun a b => b.score ≤ a.score) ∧
      (∃ b, (sortSourcesDesc g.sources).head? = some b ∧ item.defaultId = b.identifier) ∧
      item.sourcesCount = g.sources.length ∧
      item.plays = (g.sources.map (fun r => r.downloads)).sum := by
  rcases List.mem_map.mp h with ⟨g, hg, rfl⟩
  have hne : g.sources ≠ [] := mergedGroups_sources_ne_nil vt rs g hg
  have hperm := jsSortBy_perm (fun a b => decide (b.score - a.score ≤ 0)) g.sources
  obtain ⟨b, bs, hb⟩ : ∃ b bs, sortSourcesDesc g.sources = b :: bs := by
    rcases hss : sortSourcesDesc g.sources with _ | ⟨x, xs⟩
    · exfalso
      rw [sortSourcesDesc] at hss
      rw [hss] at hperm
      exact hne hperm.symm.eq_nil
    · exact ⟨x, xs, rfl⟩
  refine ⟨g, hg, rfl, hne, sortSourcesDesc_sorted _, ⟨b, by rw [hb]; rfl, ?_⟩, ?_, ?_⟩
  · simp [finalizeGroup, hb]
  · simp only [finalizeGroup]
    exact hperm.length_eq
  · simp only [finalizeGroup, plays_foldl_eq_sum, zero_add]
    exact (hperm.map (fun r => r.downloads)).sum_eq

/-- C7 witness: the theorem applied to the single show built from one
concrete recording. -/
theorem claim_C7_witness :
    ∃ g ∈ mergedGroups (fun t => [t])
        [⟨"id1", "t", "2023-04-01", "2023-04-01|v", "Unknown", 5, 0, 0,
          SourceHint.UNKNOWN, 7⟩],
      finalizeGroup (newGroup ⟨"id1", "t", "2023-04-01", "2023-04-01|v", "Unknown",
          5, 0, 0, SourceHint.UNKNOWN, 7⟩) = finalizeGroup g ∧ g.sources ≠ [] ∧
      (sortSourcesDesc g.sources).Pairwise (fun a b => b.score ≤ a.score) ∧
      (∃ b, (sortSourcesDesc g.sources).head? = some b ∧
        (finalizeGroup (newGroup ⟨"id1", "t", "2023-04-01", "2023-04-01|v", "Unknown",
          5, 0, 0, SourceHint.UNKNOWN, 7⟩)).defaultId = b.identifier) ∧
      (finalizeGroup (newGroup ⟨"id1", "t", "2023-04-01", "2023-04-01|v", "Unknown",
          5, 0, 0, SourceHint.UNKNOWN, 7⟩)).sourcesCount = g.sources.length ∧
      (finalizeGroup (newGroup ⟨"id1", "t", "2023-04-01", "2023-04-01|v", "Unknown",
          5, 0, 0, SourceHint.UNKNOWN, 7⟩)).plays =
        (g.sources.map (fun r => r.downloads)).sum :=
  claim_C7 (fun t => [t]) _ _ (List.mem_singleton.mpr rfl)

/-! ## Claim C9 — most-played ordering of every page -/

theorem showCmp_most (a b : ShowListItem) :
    showCmp "most_played" a b =
      (if b.plays - a.plays ≠ 0 then b.plays - a.plays
        else jsDateDiff b.showDate a.showDate) := by
  simp [showCmp, show ("most_played" : String) ≠ "oldest" by decide,
    show ("most_played" : String) ≠ "most" by decide,
    show ("most_played" : String) ≠ "most-played" by decide]

theorem jsDateDiff_neg (x y : String) : jsDateDiff x y = -(jsDateDiff y x) := by
  unfold jsDateDiff
  rcases isoDateVal? x with _ | a <;> rcases isoDateVal? y with _ | b <;> simp

theorem mostLe_total (a b : ShowListItem) :
    decide (showCmp "most_played" a b ≤ 0) = true ∨
      decide (showCmp "most_played" b a ≤ 0) = true := by
  have hneg : showCmp "most_played" b a = -(showCmp "most_played" a b) := by
    rw [showCmp_most, showCmp_most]
    by_cases hd : b.plays - a.plays = 0
    · rw [if_neg (by intro hc; exact hc (by linarith)), if_neg (by simpa using hd),
        jsDateDiff_neg]
    · rw [if_pos (by intro hc; exact hd (by linarith)), if_pos (by simpa using hd)]
      ring
  rcases le_total (showCmp "most_played" a b) 0 with h | h
  · exact Or.inl (decide_eq_true h)
  · exact Or.inr (decide_eq_true (by rw [hneg]; linarith))

theorem mostLe_plays {a b : ShowListItem}
    (h : decide (showCmp "most_played" a b ≤ 0) = true) : b.plays ≤ a.plays := by
  have h' := of_decide_eq_true h
  rw [showCmp_most] at h'
  by_cases hd : b.plays - a.plays = 0
  · linarith
  · rw [if_pos hd] at h'
    linarith

theorem mostLe_M {a b : ShowListItem}
    (ha : (isoDateVal? a.showDate).isSome = true)
    (hb : (isoDateVal? b.showDate).isSome = true)
    (h : decide (showCmp "most_played" a b ≤ 0) = true) :
    b.plays < a.plays ∨ (b.plays = a.plays ∧
      (isoDateVal? b.showDate).getD 0 ≤ (isoDateVal? a.showDate).getD 0) := by
  have h' := of_decide_eq_true h
  rw [showCmp_most] at h'
  by_cases hd : b.plays - a.plays = 0
  · rw [if_neg (by simpa using hd)] at h'
    rcases Option.isSome_iff_exists.mp ha with ⟨va, hva⟩
    rcases Option.isSome_iff_exists.mp hb with ⟨vb, hvb⟩
    right
    refine ⟨by linarith, ?_⟩
    rw [hva, hvb]
    unfold jsDateDiff at h'
    rw [hva, hvb] at h'
    change vb - va ≤ 0 at h'
    simp only [Option.getD_some]
    linarith
  · rw [if_pos hd] at h'
    exact Or.inl (by rcases lt_or_eq_of_le h' with h2 | h2; · linarith
                     · exact absurd h2 hd)

/-- C9: after `sortShows` with `most_played`, every page (every
contiguous slice) is in non-increasing order of `plays`, and two items
with equal `plays` are in non-increasing order of their `Date.parse`
value, i.e. descending `showDate` (stated for lists whose show dates are
calendar-valid ISO dates, which is what the pipeline produces). -/
theorem claim_C9 (shows : List ShowListItem)
    (hdates : ∀ s ∈ shows, (isoDateVal? s.showDate).isSome = true)
    (start n : ℕ) :
    (((sortShows shows "most_played").drop start).take n).Pairwise
      (fun a b => b.plays ≤ a.plays ∧
        (b.plays = a.plays →
          (isoDateVal? b.showDate).getD 0 ≤ (isoDateVal? a.showDate).getD 0)) := by
  have hM : (sortShows shows "most_played").Pairwise
      (fun a b => b.plays < a.plays ∨ (b.plays = a.plays ∧
        (isoDateVal? b.showDate).getD 0 ≤ (isoDateVal? a.showDate).getD 0)) := by
    refine pairwise_jsSortBy (P := fun s => (isoDateVal? s.showDate).isSome = true)
      mostLe_total (fun a b ha hb h => mostLe_M ha hb h) ?_ hdates
    intro a b c _ _ _ h1 h2
    rcases h1 with h1 | ⟨h1e, h1d⟩ <;> rcases h2 with h2 | ⟨h2e, h2d⟩
    · exact Or.inl (by linarith)
    · exact Or.inl (by linarith)
    · exact Or.inl (by linarith)
    · exact Or.inr ⟨by linarith, h2d.trans h1d⟩
  have hsub : (((sortShows shows "most_played").drop start).take n).Sublist
      (sortShows shows "most_played") :=
    (List.take_sublist _ _).trans (List.drop_sublist _ _)
  refine (hM.sublist hsub).imp ?_
  intro a b h
  rcases h with h | ⟨he, hd⟩
  · exact ⟨le_of_lt h, fun hc => absurd hc (by intro hcc; exact absurd hcc (ne_of_lt h))⟩
  · exact ⟨le_of_eq he, fun _ => hd⟩

/-- C9 witness: the theorem on a concrete two-show list (equal plays,
distinct dates), page slice `drop 0 |>.take 2`. -/
theorem claim_C9_witness :
    (((sortShows [⟨"k1", "2023-04-01", "t", "d", 1, "Unknown", 5, none⟩,
        ⟨"k2", "2023-03-01", "t", "d", 1, "Unknown", 5, none⟩]
        "most_played").drop 0).take 2).Pairwise
      (fun a b => b.plays ≤ a.plays ∧
        (b.plays = a.plays →
          (isoDateVal? b.showDate).getD 0 ≤ (isoDateVal? a.showDate).getD 0)) :=
  claim_C9 _ (by decide) 0 2

/-! ## Claim C2 — year/continent filtered, most-played sorted listing -/


theorem docToRecording_continent {log10 : ℚ → ℚ} {vslug : Option String → String}
    {cf : List String} {d : IaDoc} {r : Recording}
    (h : docToRecording log10 vslug cf d = some r) (hcf : cf ≠ []) :
    cf.contains r.continent = true := by
  unfold docToRecording at h
  split at h
  · exact absurd h (by simp)
  · split at h
    · exact absurd h (by simp)
    · simp only [] at h
      split at h
      · exact absurd h (by simp)
      · next hcond =>
        have hr := Option.some_injective _ h
        rw [← hr]
        rcases Bool.and_eq_false_iff.mp (Bool.eq_false_iff.mpr hcond) with hf | hn
        · exact absurd hf (by simp [hcf])
        · simpa using hn

theorem addRecording_pres (Pg : ShowGroup → Prop) {gs : List ShowGroup} {r : Recording}
    (hn : Pg (newGroup r)) (habs : ∀ g, Pg g → Pg (groupAbsorb g r))
    (h : ∀ g ∈ gs, Pg g) : ∀ g ∈ addRecording gs r, Pg g := by
  induction gs with
  | nil =>
    intro g hg
    simp only [addRecording, List.mem_singleton] at hg
    subst hg
    exact hn
  | cons x xs ih =>
    intro g hg
    by_cases hk : x.showKey = r.showKey
    · simp only [addRecording, if_pos hk] at hg
      rcases List.mem_cons.mp hg with rfl | hg'
      · exact habs x (h x (by simp))
      · exact h g (by simp [hg'])
    · simp only [addRecording, if_neg hk] at hg
      rcases List.mem_cons.mp hg with rfl | hg'
      · exact h g (by simp)
      · exact ih (fun u hu => h u (by simp [hu])) g hg'

theorem mergeIntoDateList_pres (Pg : ShowGroup → Prop) (vt : String → List String)
    {gs : List ShowGroup} {g : ShowGroup}
    (hmerge : ∀ e u, Pg e → Pg u → Pg (mergeGroupInto e u))
    (hgs : ∀ x ∈ gs, Pg x) (hg : Pg g) :
    ∀ x ∈ mergeIntoDateList vt gs g, Pg x := by
  induction gs with
  | nil =>
    intro x hx
    simp only [mergeIntoDateList, List.mem_singleton] at hx
    subst hx
    exact hg
  | cons y ys ih =>
    intro x hx
    by_cases hv : venueLooksSame vt y.title g.title = true
    · simp only [mergeIntoDateList, if_pos hv] at hx
      rcases List.mem_cons.mp hx with rfl | hx'
      · exact hmerge y g (hgs y (by simp)) hg
      · exact hgs x (by simp [hx'])
    · simp only [mergeIntoDateList, if_neg hv] at hx
      rcases List.mem_cons.mp hx with rfl | hx'
      · exact hgs x (by simp)
      · exact ih (fun u hu => hgs u (by simp [hu])) x hx'

theorem mergeStep_pres (Pg : ShowGroup → Prop) (vt : String → List String)
    {acc : List (String × List ShowGroup)} {g : ShowGroup}
    (hmerge : ∀ e u, Pg e → Pg u → Pg (mergeGroupInto e u))
    (hacc : ∀ p ∈ acc, ∀ x ∈ p.2, Pg x) (hg : Pg g) :
    ∀ p ∈ mergeStep vt acc g, ∀ x ∈ p.2, Pg x := by
  induction acc with
  | nil =>
    intro p hp
    simp only [mergeStep, List.mem_singleton] at hp
    subst hp
    intro x hx
    simp only [List.mem_singleton] at hx
    subst hx
    exact hg
  | cons q qs ih =>
    rcases q with ⟨d, gs⟩
    intro p hp
    by_cases hd : d = g.showDate
    · simp only [mergeStep, if_pos hd] at hp
      rcases List.mem_cons.mp hp with rfl | hp'
      · exact mergeIntoDateList_pres Pg vt hmerge
          (fun x hx => hacc ⟨d, gs⟩ (by simp) x hx) hg
      · exact hacc p (by simp [hp'])
    · simp only [mergeStep, if_neg hd] at hp
      rcases List.mem_cons.mp hp with rfl | hp'
      · exact hacc (d, gs) (by simp)
      · exact ih (fun u hu => hacc u (by simp [hu])) p hp'

theorem mergedGroups_pres (Pg : ShowGroup → Prop) (vt : String → List String)
    (rs : List Recording)
    (hnew : ∀ r ∈ rs, Pg (newGroup r))
    (habs : ∀ g r, Pg g → r ∈ rs → Pg (groupAbsorb g r))
    (hmerge : ∀ e u, Pg e → Pg u → Pg (mergeGroupInto e u)) :
    ∀ g ∈ mergedGroups vt rs, Pg g := by
  have hgr : ∀ g ∈ groupRecordings rs, Pg g := by
    have main : ∀ (l : List Recording) (acc : List ShowGroup), (∀ r ∈ l, r ∈ rs) →
        (∀ g ∈ acc, Pg g) → ∀ g ∈ l.foldl addRecording acc, Pg g := by
      intro l
      induction l with
      | nil => intro acc _ h; simpa using h
      | cons r rest ih =>
        intro acc hsub h
        exact ih (addRecording acc r) (fun u hu => hsub u (by simp [hu]))
          (addRecording_pres Pg (hnew r (hsub r (by simp)))
            (fun g hgp => habs g r hgp (hsub r (by simp))) h)
    exact main rs [] (fun r hr => hr) (by simp)
  have main2 : ∀ (gl : List ShowGroup) (acc : List (String × List ShowGroup)),
      (∀ p ∈ acc, ∀ x ∈ p.2, Pg x) → (∀ g ∈ gl, Pg g) →
      ∀ p ∈ gl.foldl (mergeStep vt) acc, ∀ x ∈ p.2, Pg x := by
    intro gl
    induction gl with
    | nil => intro acc h _; simpa using h
    | cons g grest ih =>
      intro acc hacc hgl
      exact ih (mergeStep vt acc g) (mergeStep_pres Pg vt hmerge hacc (hgl g (by simp)))
        (fun u hu => hgl u (by simp [hu]))
  intro g hg
  unfold mergedGroups at hg
  rcases List.mem_flatten.mp hg with ⟨l, hl, hgl⟩
  rcases List.mem_map.mp hl with ⟨p, hp, rfl⟩
  exact main2 (groupRecordings rs) [] (by simp) hgr p hp g hgl

theorem tagOneShow_fields (byDate : List (String × List KglwTagEntry))
    (s : ShowListItem) :
    (tagOneShow byDate s).continent = s.continent ∧
    (tagOneShow byDate s).plays = s.plays ∧
    (tagOneShow byDate s).showDate = s.showDate := by
  unfold tagOneShow
  rcases hentries : (byDate.lookup s.showDate).getD [] with _ | ⟨e, _ | ⟨e2, rest⟩⟩
  · simp
  · simp
  · simp only []
    rcases hf : (e :: e2 :: rest).find?
        (fun x => venueSlugMatches (lowerStr ((strSplitOnChar s.showKey '|')[1]?.getD ""))
          x.venueCandidates) with _ | e'
    · simp [hf]
    · simp [hf]

theorem filterByShowTypes_subset {shows : List ShowListItem}
    {filters : List ShowTypeFilter} {x : ShowListItem}
    (h : x ∈ filterByShowTypes shows filters) : x ∈ shows := by
  unfold filterByShowTypes at h
  by_cases hf : filters = []
  · rw [if_pos hf] at h; exact h
  · rw [if_neg hf] at h
    exact (List.mem_filter.mp h).1

theorem sortShows_most_pairwise_plays (l : List ShowListItem) :
    (sortShows l "most_played").Pairwise (fun a b => b.plays ≤ a.plays) := by
  refine pairwise_jsSortBy (P := fun _ => True) mostLe_total
    (fun a b _ _ h => mostLe_plays h) ?_ (fun _ _ => trivial)
  intro a b c _ _ _ h1 h2
  exact h2.trans h1

theorem paginate_items_sublist (l : List ShowListItem) (p : Option String) :
    (paginate l p).items.Sublist l := by
  unfold paginate
  exact jsSlice_sublist l _ _

/-- C2 (amended): for every document set returned by the search
service, a list request with continent filter `Europe`, sort
`most_played` and no free-text query returns only Shows whose continent
classification is `"Europe"`, ordered by non-increasing `plays`.  The
`year=2023` constraint of the claim is NOT re-checked locally — it is
only embedded into the upstream query string (`identifier`/`title`
wildcards), so a returned document whose extracted date does not start
with `2023` still yields a Show (see the counterexample). -/
theorem claim_C2_amended (log10 : ℚ → ℚ) (vt : String → List String)
    (vslug : Option String → String) (docs : List IaDoc)
    (byDate : List (String × List KglwTagEntry)) (pageParam : Option String) :
    (∀ item ∈ (listEndpointLocal log10 vt vslug docs ["Europe"] [] byDate
        "most_played" "" pageParam).items, item.continent = "Europe") ∧
    ((listEndpointLocal log10 vt vslug docs ["Europe"] [] byDate
        "most_played" "" pageParam).items).Pairwise (fun a b => b.plays ≤ a.plays) := by
  have hrecs : ∀ r ∈ buildRecordingsFromDocs log10 vslug docs ["Europe"],
      r.continent = "Europe" := by
    intro r hr
    rcases List.mem_filterMap.mp hr with ⟨d, _, hd⟩
    have hc := docToRecording_continent hd (by simp)
    have : r.continent ∈ ["Europe"] := by simpa using hc
    simpa using this
  have hgroups : ∀ g ∈ mergedGroups vt (buildRecordingsFromDocs log10 vslug docs
      ["Europe"]), g.continent = "Europe" := by
    refine mergedGroups_pres (fun g => g.continent = "Europe") vt _ ?_ ?_ ?_
    · intro r hr
      simpa [newGroup] using hrecs r hr
    · intro g r hg hr
      simp only [groupAbsorb]
      split
      · exact hrecs r hr
      · exact hg
    · intro e u he hu
      simp only [mergeGroupInto]
      split
      · exact hu
      · exact he
  have hshows : ∀ item ∈ buildShowsFromRecordings vt (buildRecordingsFromDocs log10
      vslug docs ["Europe"]), item.continent = "Europe" := by
    intro item hitem
    rcases List.mem_map.mp hitem with ⟨g, hg, rfl⟩
    simpa [finalizeGroup] using hgroups g hg
  have htagged : ∀ item ∈ applySpecialTagsToShows (buildShowsFromRecordings vt
      (buildRecordingsFromDocs log10 vslug docs ["Europe"])) byDate,
      item.continent = "Europe" := by
    intro item hitem
    rcases List.mem_map.mp hitem with ⟨s, hs, rfl⟩
    rw [(tagOneShow_fields byDate s).1]
    exact hshows s hs
  constructor
  · intro item hitem
    have h1 : item ∈ applySearch (sortShows (filterByShowTypes
        (applySpecialTagsToShows (buildShowsFromRecordings vt
          (buildRecordingsFromDocs log10 vslug docs ["Europe"])) byDate) [])
        "most_played") "" :=
      (paginate_items_sublist _ pageParam).subset hitem
    rw [show applySearch (sortShows (filterByShowTypes
        (applySpecialTagsToShows (buildShowsFromRecordings vt
          (buildRecordingsFromDocs log10 vslug docs ["Europe"])) byDate) [])
        "most_played") "" = sortShows (filterByShowTypes
        (applySpecialTagsToShows (buildShowsFromRecordings vt
          (buildRecordingsFromDocs log10 vslug docs ["Europe"])) byDate) [])
        "most_played" from by simp [applySearch]] at h1
    have h2 := (jsSortBy_perm _ _).mem_iff.mp h1
    exact htagged item (filterByShowTypes_subset h2)
  · have hsorted := sortShows_most_pairwise_plays (filterByShowTypes
      (applySpecialTagsToShows (buildShowsFromRecordings vt
        (buildRecordingsFromDocs log10 vslug docs ["Europe"])) byDate) [])
    have hsearch : applySearch (sortShows (filterByShowTypes
        (applySpecialTagsToShows (buildShowsFromRecordings vt
          (buildRecordingsFromDocs log10 vslug docs ["Europe"])) byDate) [])
        "most_played") "" = sortShows (filterByShowTypes
        (applySpecialTagsToShows (buildShowsFromRecordings vt
          (buildRecordingsFromDocs log10 vslug docs ["Europe"])) byDate) [])
        "most_played" := by simp [applySearch]
    refine hsorted.sublist ?_
    have := paginate_items_sublist (applySearch (sortShows (filterByShowTypes
        (applySpecialTagsToShows (buildShowsFromRecordings vt
          (buildRecordingsFromDocs log10 vslug docs ["Europe"])) byDate) [])
        "most_played") "") pageParam
    rwa [hsearch] at this

theorem paginate_page1_small (l : List ShowListItem) (hlen : l.length ≤ 25) :
    (paginate l none).items = l := by
  rw [(paginate_some_shape l none 1 parsePageParam_missing).1]
  have h0 : ⌊((1 : ℚ) - 1) * 25⌋ = 0 := by norm_num
  rw [h0]
  rw [min_eq_left (by positivity : (0 : ℤ) ≤ (l.length : ℤ))]
  rw [min_eq_right (by exact_mod_cast hlen : ((l.length : ℤ) ≤ 0 + 25))]
  simp

/-- C2 counterexample to the claim as stated: with the year filter
2023 requested, a document carrying `2023` in its identifier but whose
structured date field is `2022-06-07` (and which passes the Europe
filter via `"London, UK"`) produces a page containing exactly one Show
whose `showDate` is `2022-06-07` — which does not start with `"2023"`. -/
theorem claim_C2_counterexample :
    ((listEndpointLocal (fun _ => 0) (fun t => [t]) (fun _ => "v")
        [⟨"kglw-2023-tour", some "show", some "2022-06-07", [],
          ["KingGizzardAndTheLizardWizard"], some "London, UK", none, none, none, none⟩]
        ["Europe"] [] [] "most_played" "" none).items.map (fun i => i.showDate)) =
      ["2022-06-07"] ∧
    "2022-06-07".data.take 4 ≠ "2023".data := by
  refine ⟨?_, by decide⟩
  have hx : (listEndpointLocal (fun _ => 0) (fun t => [t]) (fun _ => "v")
      [⟨"kglw-2023-tour", some "show", some "2022-06-07", [],
        ["KingGizzardAndTheLizardWizard"], some "London, UK", none, none, none, none⟩]
      ["Europe"] [] [] "most_played" "" none).items =
      applySearch (sortShows (filterByShowTypes (applySpecialTagsToShows
        (buildShowsFromRecordings (fun t => [t]) (buildRecordingsFromDocs (fun _ => 0)
          (fun _ => "v")
          [⟨"kglw-2023-tour", some "show", some "2022-06-07", [],
            ["KingGizzardAndTheLizardWizard"], some "London, UK", none, none, none, none⟩]
          ["Europe"])) []) []) "most_played") "" :=
    paginate_page1_small _ (by decide)
  rw [hx]
  decide

/-- C2 witness: the amended theorem applied to a concrete one-document
set — the single returned item is classified `Europe` (the membership
hypothesis discharged at the concrete item) and the page is
plays-sorted. -/
theorem claim_C2_witness :
    ((listEndpointLocal (fun _ => 0) (fun t => [t]) (fun _ => "v")
        [⟨"kglw-2023-tour", some "show", some "2022-06-07", [],
          ["KingGizzardAndTheLizardWizard"], some "London, UK", none, none, none, none⟩]
        ["Europe"] [] [] "most_played" "" none).items.map (fun i => i.continent)) =
      ["Europe"] ∧
    ((listEndpointLocal (fun _ => 0) (fun t => [t]) (fun _ => "v")
        [⟨"kglw-2023-tour", some "show", some "2022-06-07", [],
          ["KingGizzardAndTheLizardWizard"], some "London, UK", none, none, none, none⟩]
        ["Europe"] [] [] "most_played" "" none).items).Pairwise
      (fun a b => b.plays ≤ a.plays) := by
  refine ⟨?_, (claim_C2_amended (fun _ => 0) (fun t => [t]) (fun _ => "v")
    [⟨"kglw-2023-tour", some "show", some "2022-06-07", [],
      ["KingGizzardAndTheLizardWizard"], some "London, UK", none, none, none, none⟩]
    [] none).2⟩
  have h1 := (claim_C2_amended (fun _ => 0) (fun t => [t]) (fun _ => "v")
    [⟨"kglw-2023-tour", some "show", some "2022-06-07", [],
      ["KingGizzardAndTheLizardWizard"], some "London, UK", none, none, none, none⟩]
    [] none).1
  have hx : (listEndpointLocal (fun _ => 0) (fun t => [t]) (fun _ => "v")
      [⟨"kglw-2023-tour", some "show", some "2022-06-07", [],
        ["KingGizzardAndTheLizardWizard"], some "London, UK", none, none, none, none⟩]
      ["Europe"] [] [] "most_played" "" none).items =
      applySearch (sortShows (filterByShowTypes (applySpecialTagsToShows
        (buildShowsFromRecordings (fun t => [t]) (buildRecordingsFromDocs (fun _ => 0)
          (fun _ => "v")
          [⟨"kglw-2023-tour", some "show", some "2022-06-07", [],
            ["KingGizzardAndTheLizardWizard"], some "London, UK", none, none, none, none⟩]
          ["Europe"])) []) []) "most_played") "" :=
    paginate_page1_small _ (by decide)
  rw [hx] at h1 ⊢
  rcases hXs : applySearch (sortShows (filterByShowTypes (applySpecialTagsToShows
      (buildShowsFromRecordings (fun t => [t]) (buildRecordingsFromDocs (fun _ => 0)
        (fun _ => "v")
        [⟨"kglw-2023-tour", some "show", some "2022-06-07", [],
          ["KingGizzardAndTheLizardWizard"], some "London, UK", none, none, none, none⟩]
        ["Europe"])) []) []) "most_played") "" with _ | ⟨S, rest⟩
  · exact absurd hXs (by decide)
  · rcases rest with _ | ⟨S2, r2⟩
    · rw [hXs] at h1
      simp only [List.map_cons, List.map_nil]
      rw [h1 S (by simp)]
    · exfalso
      have hlen1 : (applySearch (sortShows (filterByShowTypes (applySpecialTagsToShows
          (buildShowsFromRecordings (fun t => [t]) (buildRecordingsFromDocs (fun _ => 0)
            (fun _ => "v")
            [⟨"kglw-2023-tour", some "show", some "2022-06-07", [],
              ["KingGizzardAndTheLizardWizard"], some "London, UK", none, none, none,
              none⟩] ["Europe"])) []) []) "most_played") "").length = 1 := by decide
      rw [hXs] at hlen1
      simp at hlen1

end KglwListen
